import Mathlib

/-!
Shallow embedding of the Saturn-Sync repository
(src/CBD_Api.py and src/saturn_sync_full.py) for checking the
natural-language specification against the code.

Part 1: the `Printer` protocol client (CBD_Api.py).
Part 2: the `SyncAgent` reconciliation engine (saturn_sync_full.py).

Conventions: byte strings are modelled as `String` (replies are ASCII),
file contents as `List Nat` (byte values), machine integers as `Nat`/`Int`,
a raised Python exception as `Option`/`Except` failure.
-/

namespace SaturnSync

/-! ## Python-semantics helpers -/

/-- A dynamically typed Python value, needed where the source compares
values of different runtime types (`getCardFiles` compares a `str`
against the `int` literal `0`). -/
inductive PyVal where
  | str (s : String)
  | int (n : Int)
  deriving DecidableEq, Repr

/-- Python `==` between a string and an int: values of different types
are never equal. -/
def pyEq : PyVal → PyVal → Bool
  | .str a, .str b => a == b
  | .int a, .int b => a == b
  | _, _ => false

/-- Python `!=`. -/
def pyNe (a b : PyVal) : Bool := !(pyEq a b)

/-- Strip trailing whitespace from a character list (Python `rstrip`). -/
def rstripChars (cs : List Char) : List Char :=
  (cs.reverse.dropWhile Char.isWhitespace).reverse

/-- Strip whitespace from both ends (Python `strip`). -/
def stripChars (cs : List Char) : List Char :=
  rstripChars (cs.dropWhile Char.isWhitespace)

/-- Python `str.strip()`. -/
def pyStrip (s : String) : String :=
  String.mk (stripChars s.toList)

/-- Python `str.lower()` (the filenames in play are ASCII). -/
def pyLower (s : String) : String :=
  String.mk (s.toList.map Char.toLower)

/-- Split on whitespace runs, dropping empty pieces
(helper for Python `s.split()` with no argument). -/
def splitWsAux : List Char → List Char → List (List Char)
  | [], acc => if acc.isEmpty then [] else [acc.reverse]
  | c :: cs, acc =>
    if c.isWhitespace then
      if acc.isEmpty then splitWsAux cs [] else acc.reverse :: splitWsAux cs []
    else splitWsAux cs (c :: acc)

/-- Python `s.split()` with no argument. -/
def pyWords (s : String) : List String :=
  (splitWsAux s.toList []).map String.mk

/-- `s.split()[0]`, the first whitespace-delimited token;
`none` models the `IndexError` raised on a whitespace-only string. -/
def firstWord (s : String) : Option String :=
  (pyWords s).head?

/-- Split on a single separator character, keeping empty pieces
(Python `s.split(sep)` for a one-character separator). -/
def splitCharAux (sep : Char) : List Char → List Char → List (List Char)
  | [], acc => [acc.reverse]
  | c :: cs, acc =>
    if c = sep then acc.reverse :: splitCharAux sep cs []
    else splitCharAux sep cs (c :: acc)

/-- Python `s.split(sep)` for a one-character separator. -/
def splitChar (sep : Char) (s : String) : List String :=
  (splitCharAux sep s.toList []).map String.mk

/-- Python `int(s)` for an unsigned decimal literal; `none` models the
`ValueError` on anything else. -/
def parseNatDigits (s : String) : Option Nat :=
  let cs := s.toList
  if cs ≠ [] ∧ cs.all Char.isDigit then
    some (cs.foldl (fun n c => n * 10 + (c.toNat - 48)) 0)
  else none

/-- Python `s.endswith(suf)`. -/
def strEndsWith (s suf : String) : Bool :=
  suf.toList.reverse.isPrefixOf s.toList.reverse

/-- Python `str.rfind(sub)`: highest index at which `sub` occurs in `s`,
`-1` when absent. -/
def rfindSub (s sub : List Char) : Int :=
  match (((List.range (s.length + 1)).filter
      (fun i => sub.isPrefixOf (s.drop i))).max?) with
  | some i => (i : Int)
  | none => -1

/-- Python `sub in s` substring containment. -/
def containsSub (s sub : String) : Bool :=
  0 ≤ rfindSub s.toList sub.toList

/-! ## CBD_Api.Printer.__stripFormatting__ and __stripSpaceFromBack__ -/

/-- `Printer.__stripFormatting__`: decode the datagram and strip trailing
whitespace (Python `rstrip`). -/
def stripFormatting (s : String) : String := String.mk (rstripChars s.toList)

/-- `Printer.__stripSpaceFromBack__`: locate the rightmost model-file
extension (searching `.ctb` then `.goo` on the lowercased string) and
split the line there into the filename and the trailing size token
(with surrounding whitespace stripped). -/
def stripSpaceFromBack (s : String) : String × String :=
  let cs := s.toList
  let low := (pyLower s).toList
  let idxCtb := rfindSub low ".ctb".toList
  let idxGoo := rfindSub low ".goo".toList
  let extIndex := max idxCtb idxGoo
  let ext : String := if idxCtb = extIndex then ".ctb" else ".goo"
  let cut := (extIndex + (ext.length : Int)).toNat
  (String.mk (cs.take cut), pyStrip (String.mk (cs.drop cut)))

/-! ## CBD_Api.Printer.getCardFiles -/

/-- One filtering step of the `getCardFiles` loop body: whether the
stripped reply line `request` is appended to the output list.
Faithful to the source: the size-token test is the Python comparison
`self.__stripSpaceFromBack__(request)[1] != 0`, a `str`-vs-`int`
comparison. -/
def keepListingLine (request : String) : Bool :=
  (containsSub (pyLower request) ".ctb" || containsSub (pyLower request) ".goo")
    && request ≠ "Begin file list"
    && pyNe (.str (stripSpaceFromBack request).2) (.int 0)

/-- The `getCardFiles` receive loop: consume stripped reply lines until
the literal terminator, then absorb one confirmation datagram.
`none` models the exception raised when the socket times out because
the reply sequence ran out. -/
def getCardFilesLoop (request : String) (rest : List String) :
    Option (List (String × String)) :=
  if request = "End file list" then
    match rest with
    | [] => none            -- confirmation recv times out
    | _ :: _ => some []     -- absorb the ok message
  else
    match rest with
    | [] => none            -- next recv times out
    | r :: rs =>
      match getCardFilesLoop (stripFormatting r) rs with
      | none => none
      | some out =>
        if keepListingLine request then
          some (stripSpaceFromBack request :: out)
        else
          some out

/-- `Printer.getCardFiles`: parse a sequence of reply datagrams into the
list of `(filename, size-token)` records. -/
def getCardFiles (replies : List String) : Option (List (String × String)) :=
  match replies with
  | [] => none
  | r :: rs => getCardFilesLoop (stripFormatting r) rs

/-! ## CBD_Api.Printer.__sendRecieveSingle__ -/

/-- Observable outcome of one `__sendRecieveSingle__` call:
the datagrams transmitted, how many receive attempts were made, and
either the received reply or a propagated exception. -/
structure TransportOutcome where
  sent : List String
  recvAttempts : Nat
  result : Except Unit String
  deriving Repr

/-- `Printer.__sendRecieveSingle__`: transmit the command, attempt one
receive; on failure attempt exactly one more; if the retry also fails
the call raises.  `r1`/`r2` are the outcomes the transport would give
the first and second receive attempt (`none` = timeout). -/
def sendRecieveSingle (code : String) (r1 r2 : Option String) :
    TransportOutcome :=
  match r1 with
  | some o => { sent := [code], recvAttempts := 1, result := .ok o }
  | none =>
    match r2 with
    | some o => { sent := [code], recvAttempts := 2, result := .ok o }
    | none => { sent := [code], recvAttempts := 2, result := .error () }

/-! ## CBD_Api.Printer.printingStatus -/

/-- `Printer.printingStatus`.  `m27` is the result of the guarded
`__sendRecieveSingleNice__("M27")` exchange (`none` = transport failure
there, which the `try` converts to `"Not Printing"`); `confirmationOk`
says whether the unguarded confirmation `recv` after the `try` block
succeeds.  An `Except.error` is a Python exception escaping the call. -/
def printingStatus (m27 : Option String) (confirmationOk : Bool) :
    Except Unit String :=
  match m27 with
  | none => .ok "Not Printing"
  | some s =>
    let string := stripFormatting s
    if confirmationOk then
      match firstWord string with
      | none => .error ()           -- string.split()[0] raises IndexError
      | some w =>
        if w = "SD" then .ok ("Printing " ++ string) else .ok "Not Printing"
    else .error ()                  -- the confirmation recv raises

/-! ## CBD_Api.Printer.uploadFile — stage 2 (chunk transfer loop) -/

/-- The client-side state of the transfer loop, mirroring the Python
locals `offs`, `retr`, `send` and the fields `self.remaining`,
`self.filelength`. -/
structure UploadState where
  offs : Nat
  remaining : Int
  send : Bool
  retr : Nat
  filelength : Nat
  deriving DecidableEq, Repr

/-- `f.seek(offs); f.read(1280)`: the chunk of the file at `offs`. -/
def chunk (file : List Nat) (offs : Nat) : List Nat :=
  (file.drop offs).take 1280

/-- `offs.to_bytes(length=4, byteorder='little')`. -/
def leBytes4 (n : Nat) : List Nat :=
  [n % 256, n / 256 % 256, n / 65536 % 256, n / 16777216 % 256]

/-- The XOR checksum over the chunk bytes followed by the offset bytes,
starting from 0. -/
def xorChecksum (dd dc : List Nat) : Nat :=
  (dd ++ dc).foldl Nat.xor 0

/-- The packet sent for the chunk at `offs`:
payload, 4-byte little-endian offset, XOR checksum, trailer `0x83`. -/
def packet (file : List Nat) (offs : Nat) : List Nat :=
  let dd := chunk file offs
  let dc := leBytes4 offs
  dd ++ dc ++ [xorChecksum dd dc, 0x83]

/-- What one loop iteration transmits before its receive: the packet at
the cursor when `send` is set, nothing otherwise. -/
def transmission (file : List Nat) (st : UploadState) : Option (List Nat) :=
  if st.send then some (packet file st.offs) else none

/-- Parse the offset from a `resend <n>,offset error:<k>` reply:
`int(s.split()[2].split(":")[1])`, with `none` modelling the exception
on a malformed reply (the `<n>` field is also indexed by the source
before being discarded). -/
def parseResendOffset (s : String) : Option Nat :=
  let parts := pyWords s
  match parts.get? 1 with
  | none => none                     -- parts[1] raises IndexError
  | some _ =>
    match parts.get? 2 with
    | none => none                   -- parts[2] raises IndexError
    | some p =>
      match (splitChar (Char.ofNat 58) p).get? 1 with
      | none => none                 -- [1] raises IndexError
      | some numStr => parseNatDigits numStr

/-- One iteration of the transfer loop after the packet (if any) was
transmitted: classify the received reply and update the state.
`none` models an exception (empty reply or malformed resend). -/
def uploadStep (file : List Nat) (st : UploadState) (reply : String) :
    Option UploadState :=
  match firstWord reply with
  | none => none
  | some w =>
    if w = "ok" then
      if st.send then
        let dd := chunk file st.offs
        some { st with offs := st.offs + dd.length,
                       remaining := st.remaining - dd.length }
      else
        some { st with send := true }
    else if w = "resend" then
      match parseResendOffset reply with
      | some k =>
        some { st with offs := k,
                       remaining := (st.filelength : Int) - (k : Int),
                       retr := st.retr + 1,
                       send := true }
      | none => none
    else
      some { st with send := false }   -- garbage message: suppress resend

/-- Run the transfer loop against a list of replies, collecting every
packet actually transmitted.  The loop exits when `remaining ≤ 0`;
running out of replies just truncates the trace. -/
def uploadTransmissions (file : List Nat) (st : UploadState) :
    List String → List (List Nat)
  | [] => []
  | r :: rs =>
    if st.remaining ≤ 0 then []
    else
      let t := transmission file st
      match uploadStep file st r with
      | none => t.toList
      | some st' => t.toList ++ uploadTransmissions file st' rs

/-! ## CBD_Api.Printer.uploadFile — stage 3 (size verification) -/

/-- The size-verify command built after the transfer loop.  Faithful to
lines 276-280 of the source: `self.filelength` and `self.remaining` are
set to 0 first, and the command then interpolates `self.filelength`;
the recorded total length `recordedLength` no longer appears in it. -/
def verifyCommand (_recordedLength : Nat) : String :=
  let filelengthAfterReset : Nat := 0   -- self.filelength = 0 happens first
  "M4012 I1 T" ++ toString filelengthAfterReset

/-- Handling of the reply to the size-verify command: a reply whose
first token is not `ok` yields the verification-failure string
(prefixed with the retry-count annotation when `retr > 0`);
`Except.error` models the exception on a whitespace-only reply. -/
def verifyOutcome (retr : Nat) (reply : String) :
    Except Unit (Option String) :=
  match firstWord reply with
  | none => .error ()
  | some w =>
    if w = "ok" then .ok none
    else
      .ok (some ((if retr > 0 then
          toString retr ++ " Transfer Error(s): Consider increasing send delay.\n"
        else "") ++ ("Size Verify Error: " ++ reply)))

/-! ## saturn_sync_full.SyncAgent — data model

The engine state is reduced to the fields the reconciliation path
touches; the tray/UI side effects are dropped (the agent always
constructs its UI before any pass runs, so `self.ui` method calls are
modelled as no-ops).  The local folder is a list of `LocalFile`s; the
device storage is the list of filenames it holds; the outcome of the
network operations is an `Env` of response functions, so one `Env`
models a device whose behaviour does not change between passes. -/

/-- A persisted fingerprint: the `{mtime, size, checksum}` dict the
agent writes for a file (always with all three fields). -/
structure Fingerprint where
  mtime : Nat
  size : Nat
  checksum : String
  deriving DecidableEq, Repr

/-- One file of the local sync folder. -/
structure LocalFile where
  name : String
  mtime : Nat
  size : Nat
  content : List Nat
  deriving DecidableEq, Repr

/-- The environment a reconciliation pass runs against: the hash
function, and the device/filesystem responses to each operation. -/
structure Env where
  /-- `compute_checksum` as a function of the file bytes. -/
  hashFn : List Nat → String
  /-- the result string `uploadFile` returns for a given filename. -/
  uploadResult : String → String
  /-- whether `removeCardFile` succeeds for a given filename. -/
  deleteOk : String → Bool
  /-- whether the file size stabilizes within the 60-second ceiling. -/
  stabilizes : String → Bool
  /-- whether `printingStatus()` reports an active print job. -/
  printing : Bool

/-- The success test `upload_files` applies to the `uploadFile` result
string. -/
def uploadSucceeded (result : String) : Bool :=
  !(containsSub result "Error" || containsSub result "Failed"
    || containsSub result "No Response")

/-- The mutable agent state the reconciliation path reads and writes. -/
structure AgentState where
  /-- `self.metadata`, as an association list keyed by filename. -/
  metadata : List (String × Fingerprint)
  /-- the device storage contents (what `getCardFiles` would list). -/
  device : List String
  /-- `self.syncing_files` (a set; modelled as a duplicate-free list). -/
  syncing : List String
  /-- `self.error_files` (a set of the strings `handle_error` adds). -/
  errors : List String
  /-- `self.current_uploading_file`. -/
  current : String
  /-- `self.printing_paused`. -/
  printingPaused : Bool
  /-- `self.status`. -/
  status : String
  /-- every value `update_status` actually switched to, in order. -/
  statusLog : List String
  /-- number of `uploadFile` calls made. -/
  uploadOps : Nat
  /-- number of `removeCardFile` calls made. -/
  deleteOps : Nat
  deriving DecidableEq, Repr

/-- Dictionary lookup on the metadata association list. -/
def lookupMeta (m : List (String × Fingerprint)) (k : String) :
    Option Fingerprint :=
  (m.find? (fun p => p.1 == k)).map (fun p => p.2)

/-- Dictionary assignment `self.metadata[k] = v`. -/
def setMeta (m : List (String × Fingerprint)) (k : String)
    (v : Fingerprint) : List (String × Fingerprint) :=
  (k, v) :: m.filter (fun p => p.1 ≠ k)

/-- `self.metadata.pop(k, None)`. -/
def popMeta (m : List (String × Fingerprint)) (k : String) :
    List (String × Fingerprint) :=
  m.filter (fun p => p.1 ≠ k)

/-- Python set `discard` on the modelled filename set. -/
def discard (s : List String) (f : String) : List String :=
  s.filter (fun x => x ≠ f)

/-- Python set `add` on the modelled sets. -/
def setAdd (s : List String) (f : String) : List String :=
  if f ∈ s then s else s ++ [f]

/-- `SyncAgent.update_status`: a transition into the current status is
a no-op (no notification logged), otherwise the status changes and the
switch is logged.  Setting `status := new` unconditionally is identical
to the early return, because in that case `new` equals the old value. -/
def updateStatus (st : AgentState) (new : String) : AgentState :=
  { st with
    status := new,
    statusLog :=
      if new = st.status then st.statusLog else st.statusLog ++ [new] }

/-- `SyncAgent.handle_error`: add the message to `error_files` and go
to the error status (the balloon notification is a no-op here). -/
def handleError (st : AgentState) (message : String) : AgentState :=
  updateStatus { st with errors := setAdd st.errors message } "error"

/-- `pathlib.Path.suffix` of a filename. -/
def pathSuffix (name : String) : String :=
  let i := rfindSub name.toList [Char.ofNat 46]
  if 0 < i ∧ i < (name.length : Int) - 1 then
    String.mk (name.toList.drop i.toNat)
  else ""

/-- The extension test of `scan_local_files`:
`entry.suffix.lower() in (".ctb", ".goo")`. -/
def scanExt (name : String) : Bool :=
  pyLower (pathSuffix name) = ".ctb" || pyLower (pathSuffix name) = ".goo"

/-- The extension test of `sync_all` step 4:
`filename.lower().endswith((".ctb", ".goo"))`. -/
def syncExt (name : String) : Bool :=
  strEndsWith (pyLower name) ".ctb" || strEndsWith (pyLower name) ".goo"

/-! ## SyncAgent.scan_local_files and is_file_modified -/

/-- The body of `scan_local_files` for one directory entry that passed
the extension test: decide whether the hash must be recomputed
(`need_hash` is set when there is no stored checksum, Python-falsy
includes the empty string, or when the stored mtime or size differs
from the on-disk stat), refresh the metadata when it is, and produce
the `files_meta` record.  Returns the updated metadata and the record. -/
def scanFile (env : Env) (meta : List (String × Fingerprint))
    (f : LocalFile) : List (String × Fingerprint) × (String × Fingerprint) :=
  match lookupMeta meta f.name with
  | none =>
    let c := env.hashFn f.content
    let fp : Fingerprint := ⟨f.mtime, f.size, c⟩
    (setMeta meta f.name fp, (f.name, fp))
  | some s =>
    if s.checksum = "" ∨ s.mtime ≠ f.mtime ∨ s.size ≠ f.size then
      let c := env.hashFn f.content
      let fp : Fingerprint := ⟨f.mtime, f.size, c⟩
      (setMeta meta f.name fp, (f.name, fp))
    else
      (meta, (f.name, ⟨f.mtime, f.size, s.checksum⟩))

/-- `SyncAgent.scan_local_files` over the folder listing: fold
`scanFile` over the entries with a recognized extension, returning the
updated metadata and the `files_meta` records in folder order. -/
def scanLocalFiles (env : Env) (meta : List (String × Fingerprint)) :
    List LocalFile → List (String × Fingerprint) × List (String × Fingerprint)
  | [] => (meta, [])
  | f :: fs =>
    if scanExt f.name then
      let (meta1, entry) := scanFile env meta f
      let (meta2, entries) := scanLocalFiles env meta1 fs
      (meta2, entry :: entries)
    else
      scanLocalFiles env meta fs

/-- `SyncAgent.is_file_modified`: a file counts as modified when no
fingerprint is stored, the scanned checksum differs from the stored
one, or the fresh on-disk mtime differs from the stored one. -/
def isFileModified (meta : List (String × Fingerprint)) (filename : String)
    (localMeta : Fingerprint) (diskMtime : Nat) : Bool :=
  match lookupMeta meta filename with
  | none => true
  | some s =>
    localMeta.checksum ≠ s.checksum || diskMtime ≠ s.mtime

/-! ## SyncAgent.upload_files — the worker loop -/

/-- The `finally` clause of each worker iteration: clear the
current-upload indicator, discard the filename from the pending set,
and transition to the synced status. -/
def finallyCleanup (st : AgentState) (filename : String) : AgentState :=
  updateStatus
    { st with current := "", syncing := discard st.syncing filename }
    "synced"

/-- One upload attempt after the size-stability wait succeeded:
call `uploadFile`, then either refresh the fingerprint, drop the name
from the error set and record the file on the device, or hand the
result string to `handle_error`. -/
def uploadAttempt (env : Env) (st : AgentState) (f : String)
    (lf : LocalFile) : AgentState :=
  let st1 := { st with uploadOps := st.uploadOps + 1 }
  let result := env.uploadResult f
  if uploadSucceeded result then
    { st1 with
        metadata := setMeta st1.metadata f
          ⟨lf.mtime, lf.size, env.hashFn lf.content⟩,
        errors := discard st1.errors f,
        device := setAdd st1.device f }
  else
    handleError st1 ("Upload error: " ++ result)

/-- The worker body of `SyncAgent.upload_files`, iterating over a
snapshot of the pending set.  A vanished local file is discarded and
the loop continues; an active print job or a size-stability timeout
runs the `finally` cleanup for the current file and returns, leaving
the rest of the queue unprocessed; otherwise the upload is attempted
and the loop continues. -/
def workerRun (env : Env) (disk : List LocalFile) :
    AgentState → List String → AgentState
  | st, [] => st
  | st, f :: rest =>
    match disk.find? (fun lf => lf.name == f) with
    | none =>
      workerRun env disk { st with syncing := discard st.syncing f } rest
    | some lf =>
      if env.printing then
        finallyCleanup { st with printingPaused := true } f
      else
        let st1 := updateStatus { st with printingPaused := false } "syncing"
        let st2 := { st1 with current := f }
        if env.stabilizes f then
          workerRun env disk (finallyCleanup (uploadAttempt env st2 f lf) f) rest
        else
          finallyCleanup (updateStatus { st2 with current := "" } "error") f

/-- The prefix of the worker queue whose iterations actually start,
mirroring the control flow of `workerRun`: everything up to and
including the iteration that returns early, or the whole queue. -/
def processedFiles (env : Env) (disk : List LocalFile) :
    List String → List String
  | [] => []
  | f :: rest =>
    match disk.find? (fun lf => lf.name == f) with
    | none => f :: processedFiles env disk rest
    | some _ =>
      if env.printing then [f]
      else if env.stabilizes f then f :: processedFiles env disk rest
      else [f]

/-! ## SyncAgent.sync_all — one reconciliation pass -/

/-- The message `handle_error` receives when a remote deletion fails
(the filename quoted in single quotes, built characterwise to keep the
embedding printable). -/
def deleteErrorMessage (f : String) : String :=
  "Failed to delete " ++ String.mk [Char.ofNat 39] ++ f
    ++ String.mk [Char.ofNat 39] ++ " on printer"

/-- Step 3 of `sync_all`: attempt `removeCardFile` for every name in
`toDelete`; a success removes the file from the device and pops its
metadata, a failure goes to `handle_error`. -/
def runDeletions (env : Env) : AgentState → List String → AgentState
  | st, [] => st
  | st, d :: ds =>
    let st1 := { st with deleteOps := st.deleteOps + 1 }
    if env.deleteOk d then
      runDeletions env
        { st1 with device := discard st1.device d,
                   metadata := popMeta st1.metadata d } ds
    else
      runDeletions env (handleError st1 (deleteErrorMessage d)) ds

/-- The on-disk mtime `is_file_modified` re-stats for `n`; the file was
just scanned, so the fallback is unreachable on an unchanged folder. -/
def diskMtimeOf (disk : List LocalFile) (n : String) (fallback : Nat) : Nat :=
  match disk.find? (fun lf => lf.name == n) with
  | some lf => lf.mtime
  | none => fallback

/-- Step 3 input: `set(printer_files.keys()) - set(local_files.keys())`,
the device files absent locally (device order). -/
def toDelete (device localNames : List String) : List String :=
  device.filter (fun d => !(localNames.contains d))

/-- Step 4 selection: local records that are absent remotely or
fingerprint-modified (only recognized extensions). -/
def queuedFiles (disk : List LocalFile) (st : AgentState)
    (localFiles : List (String × Fingerprint)) :
    List (String × Fingerprint) :=
  localFiles.filter (fun p =>
    syncExt p.1 &&
      (!(st.device.contains p.1) ||
        isFileModified st.metadata p.1 p.2 (diskMtimeOf disk p.1 p.2.mtime)))

/-- The step-4 loop adds each selected filename to `syncing_files`
(if not already present). -/
def addAll (s : List String) (q : List (String × Fingerprint)) :
    List String :=
  q.foldl (fun (s : List String) (p : String × Fingerprint) => setAdd s p.1) s

/-- The filenames of the folder entries carrying a recognized model
extension — the names the scan reports. -/
def localNamesOf (disk : List LocalFile) : List String :=
  (disk.filter (fun lf => scanExt lf.name)).map (fun lf => lf.name)

/-- Steps 1-3 of `sync_all`: switch to the syncing status, rescan the
local folder (refreshing fingerprints), and — when the deletion policy
is enabled — delete the device files absent locally. -/
def passAfterDeletions (env : Env) (disk : List LocalFile)
    (policyDelete : Bool) (st : AgentState) : AgentState :=
  let st0 := updateStatus st "syncing"
  let scanned := scanLocalFiles env st0.metadata disk
  let st1 := { st0 with metadata := scanned.1 }
  if policyDelete then
    runDeletions env st1
      (toDelete st1.device (scanned.2.map (fun p => p.1)))
  else st1

/-- Steps 4-5 of `sync_all`: queue the local files that are absent
remotely or modified, purge fingerprints of vanished local files, and
switch to the synced status.  (`scanLocalFiles` is pure, so naming its
result twice denotes the single scan the source performs.) -/
def passPrepared (env : Env) (disk : List LocalFile) (policyDelete : Bool)
    (st : AgentState) : AgentState :=
  let st2 := passAfterDeletions env disk policyDelete st
  let scanned := scanLocalFiles env st.metadata disk
  let queued := queuedFiles disk st2 scanned.2
  let st3 := { st2 with syncing := addAll st2.syncing queued }
  let st4 := { st3 with
    metadata := st3.metadata.filter (fun p =>
      (scanned.2.map (fun q => q.1)).contains p.1) }
  updateStatus st4 "synced"

/-- `SyncAgent.sync_all`: one reconciliation pass.  Skipped outright
when paused for printing; otherwise runs steps 1-5 and hands the
pending set to the upload worker (only when the set is non-empty and
the worker is idle). -/
def syncAllPass (env : Env) (disk : List LocalFile) (policyDelete : Bool)
    (st : AgentState) : AgentState :=
  if st.printingPaused then st
  else
    let st5 := passPrepared env disk policyDelete st
    if !st5.syncing.isEmpty && st5.current == "" then
      workerRun env disk st5 st5.syncing
    else st5

/-!
# Theorems

One theorem (plus witness or counterexample where required) per claim
of the specification audit.
-/

/-- C1: the claim says the size-verify command carries the originally
recorded total length of the file.  It does not: `uploadFile` zeroes
`self.filelength` (and `self.remaining`) immediately before building
the command, so the command sent is always `M4012 I1 T0` — here shown
for a 10000-byte transfer, where the claim requires `M4012 I1 T10000`.
The source's own protocol comment (`M4012 I1 T[total bytes sent]`)
documents the intended command, so this is a code bug.  The second
part of the claim holds: a reply whose first token is not `ok` yields
the verification-failure string carrying the retry-count annotation
(when retries occurred). -/
theorem C1_size_verify_sends_zero :
    verifyCommand 10000 = "M4012 I1 T0" ∧
    verifyCommand 10000 ≠ "M4012 I1 T10000" ∧
    verifyOutcome 3 "wrong stuff" = .ok (some
      ("3 Transfer Error(s): Consider increasing send delay.\n" ++
        "Size Verify Error: wrong stuff")) ∧
    verifyOutcome 0 "ok N:0" = .ok none := by
  refine ⟨rfl, by decide, rfl, rfl⟩

/-- C2: the claim says the zero-size entry `bar.goo 0` is excluded from
the listing.  It is not: the filter compares the size token, a Python
`str`, against the `int` literal `0`, which is always unequal, so no
entry is ever discarded; on the claimed reply sequence `getCardFiles`
returns both records.  The source's own comment (`this prevents deleted
files from appearing`) documents the intent, so this is a code bug.
The final `"ok"` datagram feeds the confirmation `recv` that follows
the terminator. -/
theorem C2_zero_size_entry_not_excluded :
    getCardFiles ["Begin file list\r\n", "foo.ctb 1200000\r\n",
        "bar.goo 0\r\n", "End file list\r\n", "ok"] =
      some [("foo.ctb", "1200000"), ("bar.goo", "0")] ∧
    getCardFiles ["Begin file list\r\n", "foo.ctb 1200000\r\n",
        "bar.goo 0\r\n", "End file list\r\n", "ok"] ≠
      some [("foo.ctb", "1200000")] := by
  refine ⟨by decide, by decide⟩

/-- C3 (counterexample): the claim says that after a reply that is
neither `ok` nor `resend` the client re-sends the same chunk unchanged
as its next transmission.  In fact a garbage reply only clears the
`send` flag — nothing is transmitted until another reply arrives, and
if that reply is a `resend` the next transmission originates at the
resend offset instead.  Concretely: transferring the 5-byte file
`[1,2,3,4,5]`, the trace (garbage, resend-to-2, ok) produces exactly
the transmissions `[packet at 0, packet at 2]`, so the transmission
following the garbage reply is the packet at offset 2, not the packet
at offset 0 that had just been sent. -/
theorem C3_counterexample :
    firstWord "garbage" = some "garbage" ∧
    ("garbage" : String) ≠ "ok" ∧ ("garbage" : String) ≠ "resend" ∧
    uploadTransmissions [1, 2, 3, 4, 5] ⟨0, 5, true, 0, 5⟩
        ["garbage", "resend 99,offset error:2", "ok"] =
      [packet [1, 2, 3, 4, 5] 0, packet [1, 2, 3, 4, 5] 2] ∧
    packet [1, 2, 3, 4, 5] 2 ≠ packet [1, 2, 3, 4, 5] 0 := by
  refine ⟨by decide, by decide, by decide, by decide, by decide⟩

/-- C3 (amended): after a reply that is neither an `ok` reply nor a
`resend` reply, the client leaves the cursor, the remaining-byte count
and the retry counter unchanged and only clears the `send` flag, so its
next iteration transmits nothing; if the following reply is an `ok`
reply the flag is restored with the state otherwise untouched, and the
chunk then retransmitted is exactly the packet that had just been sent
(same payload, same offset, same checksum).  An intervening `resend`
reply instead moves the cursor, so the retransmission is only
guaranteed when no resend intervenes. -/
theorem C3_garbage_reply (file : List Nat) (st : UploadState) (r w : String)
    (hsend : st.send = true) (hw : firstWord r = some w)
    (hok : w ≠ "ok") (hre : w ≠ "resend") :
    uploadStep file st r = some { st with send := false } ∧
    transmission file { st with send := false } = none ∧
    uploadStep file { st with send := false } "ok" =
      some { st with send := true } ∧
    transmission file { st with send := true } = some (packet file st.offs) ∧
    transmission file st = some (packet file st.offs) := by
  refine ⟨?_, ?_, ?_, ?_, ?_⟩
  · simp [uploadStep, hw, hok, hre]
  · simp [transmission]
  · simp [uploadStep, firstWord, pyWords, splitWsAux]
  · simp [transmission]
  · simp [transmission, hsend]

/-- C3 witness: the amended theorem applied to the 5-byte transfer at
offset 0 with the garbage reply `"junk"`. -/
theorem C3_garbage_reply_witness :
    uploadStep [1, 2, 3, 4, 5] ⟨0, 5, true, 0, 5⟩ "junk" =
      some ⟨0, 5, false, 0, 5⟩ ∧
    transmission [1, 2, 3, 4, 5] ⟨0, 5, false, 0, 5⟩ = none ∧
    uploadStep [1, 2, 3, 4, 5] ⟨0, 5, false, 0, 5⟩ "ok" =
      some ⟨0, 5, true, 0, 5⟩ ∧
    transmission [1, 2, 3, 4, 5] ⟨0, 5, true, 0, 5⟩ =
      some (packet [1, 2, 3, 4, 5] 0) ∧
    transmission [1, 2, 3, 4, 5] ⟨0, 5, true, 0, 5⟩ =
      some (packet [1, 2, 3, 4, 5] 0) :=
  C3_garbage_reply [1, 2, 3, 4, 5] ⟨0, 5, true, 0, 5⟩ "junk" "junk"
    rfl (by decide) (by decide) (by decide)

/-- C9: on the reply `resend 1280,offset error:4096` with a recorded
file length of 10000, the client adopts 4096 as the new cursor,
recomputes remaining as 10000 − 4096 = 5904, increments the retry
counter by one, sets the send flag, and its next transmission is the
packet at offset 4096 (whose offset field is the little-endian
encoding of 4096). -/
theorem C9_resend_recovery (file : List Nat) (st : UploadState)
    (hlen : st.filelength = 10000) :
    uploadStep file st "resend 1280,offset error:4096" =
      some { st with offs := 4096, remaining := 5904,
                     retr := st.retr + 1, send := true } ∧
    transmission file
      { st with offs := 4096, remaining := 5904,
                retr := st.retr + 1, send := true } =
      some (packet file 4096) ∧
    packet file 4096 =
      chunk file 4096 ++ leBytes4 4096 ++
        [xorChecksum (chunk file 4096) (leBytes4 4096), 0x83] ∧
    leBytes4 4096 = [0, 16, 0, 0] ∧ (5904 : Int) = 10000 - 4096 := by
  have h1 : uploadStep file st "resend 1280,offset error:4096" =
      some { st with offs := 4096,
                     remaining := (st.filelength : Int) - (4096 : Int),
                     retr := st.retr + 1, send := true } := by
    rfl
  rw [h1, hlen]
  refine ⟨by norm_num, by simp [transmission], rfl, by decide, by decide⟩

/-- C9 witness: the theorem applied mid-transfer of a (mostly zero)
10000-byte file at cursor 2560. -/
theorem C9_resend_recovery_witness :
    uploadStep (List.replicate 10000 0) ⟨2560, 7440, true, 0, 10000⟩
        "resend 1280,offset error:4096" =
      some ⟨4096, 5904, true, 1, 10000⟩ ∧
    transmission (List.replicate 10000 0) ⟨4096, 5904, true, 1, 10000⟩ =
      some (packet (List.replicate 10000 0) 4096) ∧
    packet (List.replicate 10000 0) 4096 =
      chunk (List.replicate 10000 0) 4096 ++ leBytes4 4096 ++
        [xorChecksum (chunk (List.replicate 10000 0) 4096) (leBytes4 4096),
          0x83] ∧
    leBytes4 4096 = [0, 16, 0, 0] ∧ (5904 : Int) = 10000 - 4096 :=
  C9_resend_recovery (List.replicate 10000 0) ⟨2560, 7440, true, 0, 10000⟩ rfl

/-- C7 (counterexample): the claim says `printingStatus` never raises,
returning a string for every reply and for every transport failure at
any point during the exchange, including the absorption of the
trailing acknowledgment datagram.  In fact only the initial `M27`
exchange sits inside the `try` block: a transport failure on the
confirmation `recv` that follows it propagates (first conjunct), and a
whitespace-only reply raises `IndexError` from `string.split()[0]`
(second conjunct). -/
theorem C7_counterexample :
    printingStatus (some "SD printing byte 123/456\r\n") false =
      .error () ∧
    printingStatus (some "  \r\n") true = .error () := by
  exact ⟨rfl, rfl⟩

/-- C7 (amended): a transport failure during the `M27` exchange itself
degrades to `"Not Printing"`; when that exchange and the following
confirmation `recv` both succeed and the reply has a first token, the
query returns a string — the printing classification exactly when the
first token equals the sentinel `SD` — but a failure of the
confirmation `recv`, or a reply with no tokens, raises instead. -/
theorem C7_status_query (s w : String) (confirmationOk : Bool)
    (hw : firstWord (stripFormatting s) = some w) :
    printingStatus none confirmationOk = .ok "Not Printing" ∧
    (confirmationOk = false → printingStatus (some s) confirmationOk =
      .error ()) ∧
    (confirmationOk = true → w = "SD" →
      printingStatus (some s) confirmationOk =
        .ok ("Printing " ++ stripFormatting s)) ∧
    (confirmationOk = true → w ≠ "SD" →
      printingStatus (some s) confirmationOk = .ok "Not Printing") := by
  refine ⟨rfl, ?_, ?_, ?_⟩
  · rintro rfl
    simp [printingStatus]
  · rintro rfl rfl
    simp [printingStatus, hw]
  · rintro rfl hsd
    simp [printingStatus, hw, hsd]

/-- C7 witness: the amended theorem applied to the reply
`SD printing byte 123/456` with a successful confirmation. -/
theorem C7_status_query_witness :
    printingStatus (some "SD printing byte 123/456\r\n") true =
      .ok ("Printing " ++ stripFormatting "SD printing byte 123/456\r\n") :=
  (C7_status_query "SD printing byte 123/456\r\n" "SD" true
    (by decide)).2.2.1 rfl rfl

/-- C8: `__sendRecieveSingle__` transmits the command once and attempts
one receive; if and only if that receive fails it makes exactly one
additional attempt; if the retry also fails the call raises (no value
is returned, no further retries happen at this layer).  The concrete
exception the interpreter raises in that last case is the
`UnboundLocalError` produced by the `return output` inside `finally`,
but observably an exception propagates exactly as the claim states. -/
theorem C8_transport_single_retry (code : String) (r1 r2 : Option String) :
    (sendRecieveSingle code r1 r2).sent = [code] ∧
    (∀ o, r1 = some o →
      (sendRecieveSingle code r1 r2).recvAttempts = 1 ∧
      (sendRecieveSingle code r1 r2).result = .ok o) ∧
    (r1 = none → (sendRecieveSingle code r1 r2).recvAttempts = 2) ∧
    (∀ o, r1 = none → r2 = some o →
      (sendRecieveSingle code r1 r2).result = .ok o) ∧
    (r1 = none → r2 = none →
      (sendRecieveSingle code r1 r2).result = .error ()) := by
  cases r1 <;> cases r2 <;>
    simp [sendRecieveSingle]

/-- C8 witness: both receive attempts time out on an `M20` exchange —
the command is sent once, two receive attempts are made, and the call
raises. -/
theorem C8_transport_single_retry_witness :
    (sendRecieveSingle "M20" none none).sent = ["M20"] ∧
    (sendRecieveSingle "M20" none none).recvAttempts = 2 ∧
    (sendRecieveSingle "M20" none none).result = .error () :=
  ⟨(C8_transport_single_retry "M20" none none).1,
   (C8_transport_single_retry "M20" none none).2.2.1 rfl,
   (C8_transport_single_retry "M20" none none).2.2.2.2 rfl rfl⟩

/-- C4: the dirty check.  First conjunct: `is_file_modified` holds if
and only if no fingerprint is stored, or the scanned content hash
differs from the stored hash, or the on-disk mtime differs from the
stored one — the rule deciding upload necessity for files present
remotely.  Second conjunct: when a stored fingerprint exists (with a
non-empty hash) whose size and mtime both equal the on-disk values,
the scan does not recompute the hash — its result does not depend on
the hash function and reuses the stored checksum — and the resulting
record is judged unmodified.  Because `f.content` is universally
quantified, this covers the documented edge case: a file whose bytes
changed while its size and mtime stayed equal to the fingerprint is
treated as unmodified (no hash recompute, no upload). -/
theorem C4_fingerprint_dirty_check (env : Env)
    (meta : List (String × Fingerprint)) (f : LocalFile)
    (lm : Fingerprint) (dm : Nat) (s : Fingerprint) :
    (isFileModified meta f.name lm dm = true ↔
      lookupMeta meta f.name = none ∨
      ∃ s0, lookupMeta meta f.name = some s0 ∧
        (lm.checksum ≠ s0.checksum ∨ dm ≠ s0.mtime)) ∧
    (lookupMeta meta f.name = some s → s.checksum ≠ "" →
      s.mtime = f.mtime → s.size = f.size →
      scanFile env meta f =
        (meta, (f.name, ⟨f.mtime, f.size, s.checksum⟩)) ∧
      isFileModified (scanFile env meta f).1 f.name
        (scanFile env meta f).2.2 f.mtime = false) := by
  constructor
  · cases h : lookupMeta meta f.name with
    | none => simp [isFileModified, h]
    | some s0 => simp [isFileModified, h]
  · intro h hne hm hs
    have h2 : scanFile env meta f =
        (meta, (f.name, ⟨f.mtime, f.size, s.checksum⟩)) := by
      simp [scanFile, h, hne, hm, hs]
    refine ⟨h2, ?_⟩
    rw [h2]
    simp [isFileModified, h, hm]

/-- C4 witness: a stored fingerprint `(mtime 5, size 10, hash "abc")`
matching the on-disk stat of `a.ctb`, whose bytes now hash to `"zzz"`:
the scan keeps the stored fingerprint and the file counts as
unmodified. -/
theorem C4_fingerprint_dirty_check_witness :
    scanFile ⟨fun _ => "zzz", fun _ => "", fun _ => true, fun _ => true,
        false⟩
      [("a.ctb", ⟨5, 10, "abc"⟩)] ⟨"a.ctb", 5, 10, [9, 9]⟩ =
      ([("a.ctb", ⟨5, 10, "abc"⟩)], ("a.ctb", ⟨5, 10, "abc"⟩)) ∧
    isFileModified
      (scanFile ⟨fun _ => "zzz", fun _ => "", fun _ => true, fun _ => true,
          false⟩
        [("a.ctb", ⟨5, 10, "abc"⟩)] ⟨"a.ctb", 5, 10, [9, 9]⟩).1
      "a.ctb"
      (scanFile ⟨fun _ => "zzz", fun _ => "", fun _ => true, fun _ => true,
          false⟩
        [("a.ctb", ⟨5, 10, "abc"⟩)] ⟨"a.ctb", 5, 10, [9, 9]⟩).2.2
      5 = false :=
  (C4_fingerprint_dirty_check
      ⟨fun _ => "zzz", fun _ => "", fun _ => true, fun _ => true, false⟩
      [("a.ctb", ⟨5, 10, "abc"⟩)] ⟨"a.ctb", 5, 10, [9, 9]⟩
      ⟨5, 10, "abc"⟩ 5 ⟨5, 10, "abc"⟩).2
    (by decide) (by decide) rfl rfl

/-! ## Helper lemmas about the agent-state operations -/

@[simp]
theorem updateStatus_syncing (st : AgentState) (n : String) :
    (updateStatus st n).syncing = st.syncing := rfl

@[simp]
theorem updateStatus_current (st : AgentState) (n : String) :
    (updateStatus st n).current = st.current := rfl

@[simp]
theorem updateStatus_device (st : AgentState) (n : String) :
    (updateStatus st n).device = st.device := rfl

@[simp]
theorem updateStatus_printingPaused (st : AgentState) (n : String) :
    (updateStatus st n).printingPaused = st.printingPaused := rfl

@[simp]
theorem updateStatus_uploadOps (st : AgentState) (n : String) :
    (updateStatus st n).uploadOps = st.uploadOps := rfl

@[simp]
theorem updateStatus_deleteOps (st : AgentState) (n : String) :
    (updateStatus st n).deleteOps = st.deleteOps := rfl

@[simp]
theorem updateStatus_status (st : AgentState) (n : String) :
    (updateStatus st n).status = n := rfl

@[simp]
theorem handleError_syncing (st : AgentState) (m : String) :
    (handleError st m).syncing = st.syncing := rfl

@[simp]
theorem handleError_current (st : AgentState) (m : String) :
    (handleError st m).current = st.current := rfl

@[simp]
theorem handleError_device (st : AgentState) (m : String) :
    (handleError st m).device = st.device := rfl

@[simp]
theorem handleError_printingPaused (st : AgentState) (m : String) :
    (handleError st m).printingPaused = st.printingPaused := rfl

@[simp]
theorem handleError_uploadOps (st : AgentState) (m : String) :
    (handleError st m).uploadOps = st.uploadOps := rfl

@[simp]
theorem handleError_deleteOps (st : AgentState) (m : String) :
    (handleError st m).deleteOps = st.deleteOps := rfl

@[simp]
theorem uploadAttempt_syncing (env : Env) (st : AgentState) (f : String)
    (lf : LocalFile) : (uploadAttempt env st f lf).syncing = st.syncing := by
  simp only [uploadAttempt]
  split <;> rfl

@[simp]
theorem uploadAttempt_current (env : Env) (st : AgentState) (f : String)
    (lf : LocalFile) : (uploadAttempt env st f lf).current = st.current := by
  simp only [uploadAttempt]
  split <;> rfl

@[simp]
theorem uploadAttempt_printingPaused (env : Env) (st : AgentState)
    (f : String) (lf : LocalFile) :
    (uploadAttempt env st f lf).printingPaused = st.printingPaused := by
  simp only [uploadAttempt]
  split <;> rfl

@[simp]
theorem uploadAttempt_uploadOps (env : Env) (st : AgentState) (f : String)
    (lf : LocalFile) :
    (uploadAttempt env st f lf).uploadOps = st.uploadOps + 1 := by
  simp only [uploadAttempt]
  split <;> rfl

theorem uploadAttempt_device_ok (env : Env) (st : AgentState) (f : String)
    (lf : LocalFile) (h : uploadSucceeded (env.uploadResult f) = true) :
    (uploadAttempt env st f lf).device = setAdd st.device f := by
  simp only [uploadAttempt]
  simp [h]

@[simp]
theorem finallyCleanup_syncing (st : AgentState) (f : String) :
    (finallyCleanup st f).syncing = discard st.syncing f := rfl

@[simp]
theorem finallyCleanup_current (st : AgentState) (f : String) :
    (finallyCleanup st f).current = "" := rfl

@[simp]
theorem finallyCleanup_device (st : AgentState) (f : String) :
    (finallyCleanup st f).device = st.device := rfl

@[simp]
theorem finallyCleanup_printingPaused (st : AgentState) (f : String) :
    (finallyCleanup st f).printingPaused = st.printingPaused := rfl

@[simp]
theorem finallyCleanup_uploadOps (st : AgentState) (f : String) :
    (finallyCleanup st f).uploadOps = st.uploadOps := rfl

@[simp]
theorem updateStatus_errors (st : AgentState) (n : String) :
    (updateStatus st n).errors = st.errors := rfl

@[simp]
theorem finallyCleanup_errors (st : AgentState) (f : String) :
    (finallyCleanup st f).errors = st.errors := rfl

theorem handleError_errors (st : AgentState) (m : String) :
    (handleError st m).errors = setAdd st.errors m := rfl

theorem uploadAttempt_errors_fail (env : Env) (st : AgentState) (f : String)
    (lf : LocalFile) (h : uploadSucceeded (env.uploadResult f) = false) :
    (uploadAttempt env st f lf).errors =
      setAdd st.errors ("Upload error: " ++ env.uploadResult f) := by
  simp only [uploadAttempt]
  simp [h, handleError_errors]

theorem mem_discard {x f : String} {s : List String} :
    x ∈ discard s f ↔ x ∈ s ∧ x ≠ f := by
  simp [discard]

theorem mem_setAdd {x f : String} {s : List String} :
    x ∈ setAdd s f ↔ x ∈ s ∨ x = f := by
  unfold setAdd
  split
  · rename_i h
    constructor
    · exact fun hx => Or.inl hx
    · rintro (hx | rfl)
      · exact hx
      · exact h
  · simp

/-! Branch-reduction equations for the worker loop. -/

theorem workerRun_cons_missing (env : Env) (disk : List LocalFile)
    (st : AgentState) (f : String) (rest : List String)
    (h : disk.find? (fun lf => lf.name == f) = none) :
    workerRun env disk st (f :: rest) =
      workerRun env disk { st with syncing := discard st.syncing f } rest := by
  rw [workerRun, h]

theorem workerRun_cons_printing (env : Env) (disk : List LocalFile)
    (st : AgentState) (f : String) (rest : List String) (lf : LocalFile)
    (h : disk.find? (fun lf => lf.name == f) = some lf)
    (hpr : env.printing = true) :
    workerRun env disk st (f :: rest) =
      finallyCleanup { st with printingPaused := true } f := by
  rw [workerRun, h]
  simp [hpr]

theorem workerRun_cons_timeout (env : Env) (disk : List LocalFile)
    (st : AgentState) (f : String) (rest : List String) (lf : LocalFile)
    (h : disk.find? (fun lf => lf.name == f) = some lf)
    (hpr : env.printing = false) (hstab : env.stabilizes f = false) :
    workerRun env disk st (f :: rest) =
      finallyCleanup
        (updateStatus
          { updateStatus { st with printingPaused := false } "syncing" with
              current := "" } "error") f := by
  rw [workerRun, h]
  simp [hpr, hstab]

theorem workerRun_cons_upload (env : Env) (disk : List LocalFile)
    (st : AgentState) (f : String) (rest : List String) (lf : LocalFile)
    (h : disk.find? (fun lf => lf.name == f) = some lf)
    (hpr : env.printing = false) (hstab : env.stabilizes f = true) :
    workerRun env disk st (f :: rest) =
      workerRun env disk
        (finallyCleanup
          (uploadAttempt env
            { updateStatus { st with printingPaused := false } "syncing" with
                current := f } f lf) f) rest := by
  rw [workerRun, h]
  simp [hpr, hstab]

/-- The worker never adds to the pending set. -/
theorem workerRun_syncing_subset (env : Env) (disk : List LocalFile) :
    ∀ (q : List String) (st : AgentState) (x : String),
      x ∈ (workerRun env disk st q).syncing → x ∈ st.syncing := by
  intro q
  induction q with
  | nil => intro st x hx; exact hx
  | cons f rest ih =>
    intro st x hx
    cases hfind : disk.find? (fun lf => lf.name == f) with
    | none =>
      rw [workerRun_cons_missing env disk st f rest hfind] at hx
      exact (mem_discard.mp (ih _ x hx)).1
    | some lf =>
      cases hpr : env.printing with
      | true =>
        rw [workerRun_cons_printing env disk st f rest lf hfind hpr] at hx
        rw [finallyCleanup_syncing, mem_discard] at hx
        exact hx.1
      | false =>
        cases hstab : env.stabilizes f with
        | true =>
          rw [workerRun_cons_upload env disk st f rest lf hfind hpr hstab]
            at hx
          have := ih _ x hx
          rw [finallyCleanup_syncing, uploadAttempt_syncing,
            mem_discard] at this
          exact this.1
        | false =>
          rw [workerRun_cons_timeout env disk st f rest lf hfind hpr hstab]
            at hx
          rw [finallyCleanup_syncing, mem_discard] at hx
          exact hx.1

/-- The worker leaves the current-upload indicator empty whenever it
was empty on entry. -/
theorem workerRun_current (env : Env) (disk : List LocalFile) :
    ∀ (q : List String) (st : AgentState), st.current = "" →
      (workerRun env disk st q).current = "" := by
  intro q
  induction q with
  | nil => intro st h; exact h
  | cons f rest ih =>
    intro st h
    cases hfind : disk.find? (fun lf => lf.name == f) with
    | none =>
      rw [workerRun_cons_missing env disk st f rest hfind]
      exact ih _ h
    | some lf =>
      cases hpr : env.printing with
      | true =>
        rw [workerRun_cons_printing env disk st f rest lf hfind hpr]
        exact finallyCleanup_current _ _
      | false =>
        cases hstab : env.stabilizes f with
        | true =>
          rw [workerRun_cons_upload env disk st f rest lf hfind hpr hstab]
          exact ih _ (finallyCleanup_current _ _)
        | false =>
          rw [workerRun_cons_timeout env disk st f rest lf hfind hpr hstab]
          exact finallyCleanup_current _ _

/-- Every file whose worker iteration starts ends up outside the
pending set. -/
theorem workerRun_processed_not_pending (env : Env) (disk : List LocalFile) :
    ∀ (queue : List String) (st : AgentState),
      ∀ f ∈ processedFiles env disk queue,
        f ∉ (workerRun env disk st queue).syncing := by
  intro queue
  induction queue with
  | nil =>
    intro st f hf
    exact absurd hf (by simp [processedFiles])
  | cons g rest ih =>
    intro st f hf
    cases hfind : disk.find? (fun lf => lf.name == g) with
    | none =>
      rw [workerRun_cons_missing env disk st g rest hfind]
      rw [processedFiles, hfind] at hf
      rcases List.mem_cons.mp hf with rfl | hf2
      · intro hmem
        have := workerRun_syncing_subset env disk rest _ f hmem
        exact (mem_discard.mp this).2 rfl
      · exact ih _ f hf2
    | some lf =>
      rw [processedFiles, hfind] at hf
      cases hpr : env.printing with
      | true =>
        rw [workerRun_cons_printing env disk st g rest lf hfind hpr]
        simp only [hpr, if_pos rfl] at hf
        rcases List.mem_singleton.mp hf with rfl
        rw [finallyCleanup_syncing]
        intro hmem
        exact (mem_discard.mp hmem).2 rfl
      | false =>
        have hprf : ¬env.printing = true := by simp [hpr]
        cases hstab : env.stabilizes g with
        | true =>
          rw [workerRun_cons_upload env disk st g rest lf hfind hpr hstab]
          simp only [if_neg hprf, hstab, if_pos rfl] at hf
          rcases List.mem_cons.mp hf with rfl | hf2
          · intro hmem
            have := workerRun_syncing_subset env disk rest _ f hmem
            rw [finallyCleanup_syncing, uploadAttempt_syncing,
              mem_discard] at this
            exact this.2 rfl
          · exact ih _ f hf2
        | false =>
          rw [workerRun_cons_timeout env disk st g rest lf hfind hpr hstab]
          have hstf : ¬env.stabilizes g = true := by simp [hstab]
          simp only [if_neg hprf, if_neg hstf] at hf
          rcases List.mem_singleton.mp hf with rfl
          rw [finallyCleanup_syncing]
          intro hmem
          exact (mem_discard.mp hmem).2 rfl

/-- C10: every worker iteration that starts — including exits by
successful upload, failed upload, raised exception (a failing upload
result models both), local file disappearance, size-stability timeout,
and the early return when the device reports an active print — leaves
that filename removed from the pending set and the current-uploading
indicator equal to the empty string; in particular a file deferred
because the device is printing is dropped from the pending set rather
than kept queued.  (`processedFiles` is exactly the prefix of the queue
whose iterations start before the worker returns.) -/
theorem C10_worker_always_cleans_up (env : Env) (disk : List LocalFile)
    (st : AgentState) (queue : List String) (hcur : st.current = "") :
    (workerRun env disk st queue).current = "" ∧
    ∀ f ∈ processedFiles env disk queue,
      f ∉ (workerRun env disk st queue).syncing :=
  ⟨workerRun_current env disk queue st hcur,
   workerRun_processed_not_pending env disk queue st⟩

/-- C10 witness: a two-file queue where the second file has vanished
locally; both files end up outside the pending set and the indicator
ends empty. -/
theorem C10_worker_always_cleans_up_witness :
    (workerRun
        ⟨fun _ => "h", fun _ => "Done", fun _ => true, fun _ => true, false⟩
        [⟨"a.ctb", 1, 10, [1]⟩]
        ⟨[], [], ["a.ctb", "b.ctb"], [], "", false, "offline", [], 0, 0⟩
        ["a.ctb", "b.ctb"]).current = "" ∧
    ∀ f ∈ processedFiles
        ⟨fun _ => "h", fun _ => "Done", fun _ => true, fun _ => true, false⟩
        [⟨"a.ctb", 1, 10, [1]⟩] ["a.ctb", "b.ctb"],
      f ∉ (workerRun
          ⟨fun _ => "h", fun _ => "Done", fun _ => true, fun _ => true,
            false⟩
          [⟨"a.ctb", 1, 10, [1]⟩]
          ⟨[], [], ["a.ctb", "b.ctb"], [], "", false, "offline", [], 0, 0⟩
          ["a.ctb", "b.ctb"]).syncing :=
  C10_worker_always_cleans_up
    ⟨fun _ => "h", fun _ => "Done", fun _ => true, fun _ => true, false⟩
    [⟨"a.ctb", 1, 10, [1]⟩]
    ⟨[], [], ["a.ctb", "b.ctb"], [], "", false, "offline", [], 0, 0⟩
    ["a.ctb", "b.ctb"] rfl

/-- C6 (counterexample): two pending files where `a.ctb` never reaches
size stability while `b.ctb` is uploadable — the worker returns after
`a.ctb`, performing zero uploads, leaving `b.ctb` pending and absent
from the device: the pass does not continue with the remaining files.
Additionally, when an upload fails, `error_files` receives the message
string `Upload error: <result>` — not the filename the claim says is
added to the error set. -/
theorem C6_counterexample :
    (workerRun
        ⟨fun _ => "h", fun _ => "Done", fun _ => true,
          fun f => f != "a.ctb", false⟩
        [⟨"a.ctb", 1, 10, [1]⟩, ⟨"b.ctb", 2, 20, [2]⟩]
        ⟨[], [], ["a.ctb", "b.ctb"], [], "", false, "offline", [], 0, 0⟩
        ["a.ctb", "b.ctb"]).uploadOps = 0 ∧
    (workerRun
        ⟨fun _ => "h", fun _ => "Done", fun _ => true,
          fun f => f != "a.ctb", false⟩
        [⟨"a.ctb", 1, 10, [1]⟩, ⟨"b.ctb", 2, 20, [2]⟩]
        ⟨[], [], ["a.ctb", "b.ctb"], [], "", false, "offline", [], 0, 0⟩
        ["a.ctb", "b.ctb"]).syncing = ["b.ctb"] ∧
    "b.ctb" ∉ (workerRun
        ⟨fun _ => "h", fun _ => "Done", fun _ => true,
          fun f => f != "a.ctb", false⟩
        [⟨"a.ctb", 1, 10, [1]⟩, ⟨"b.ctb", 2, 20, [2]⟩]
        ⟨[], [], ["a.ctb", "b.ctb"], [], "", false, "offline", [], 0, 0⟩
        ["a.ctb", "b.ctb"]).device ∧
    (workerRun
        ⟨fun _ => "h", fun _ => "M28 Error: x", fun _ => true, fun _ => true,
          false⟩
        [⟨"c.ctb", 3, 30, [3]⟩]
        ⟨[], [], ["c.ctb"], [], "", false, "offline", [], 0, 0⟩
        ["c.ctb"]).errors = ["Upload error: M28 Error: x"] ∧
    "c.ctb" ∉ (workerRun
        ⟨fun _ => "h", fun _ => "M28 Error: x", fun _ => true, fun _ => true,
          false⟩
        [⟨"c.ctb", 3, 30, [3]⟩]
        ⟨[], [], ["c.ctb"], [], "", false, "offline", [], 0, 0⟩
        ["c.ctb"]).errors := by
  refine ⟨by decide, by decide, by decide, by decide, by decide⟩

/-- C6 (amended): within one pass, a file whose size never stabilizes
within the ceiling causes the worker to log the Error status
(transiently — the cleanup clause then resets the status to synced),
clean up that file, and return, so the remaining pending files are not
processed in that pass; a file whose upload fails has the message
`Upload error: <result>` added to the error set and the pass continues
with the remaining files. -/
theorem C6_error_handling (env : Env) (disk : List LocalFile)
    (st : AgentState) (f : String) (rest : List String) (lf : LocalFile)
    (hfind : disk.find? (fun x => x.name == f) = some lf)
    (hpr : env.printing = false) :
    (env.stabilizes f = false →
      (workerRun env disk st (f :: rest)).uploadOps = st.uploadOps ∧
      (workerRun env disk st (f :: rest)).syncing = discard st.syncing f ∧
      "error" ∈ (workerRun env disk st (f :: rest)).statusLog ∧
      (workerRun env disk st (f :: rest)).current = "") ∧
    (env.stabilizes f = true → uploadSucceeded (env.uploadResult f) = false →
      ∃ st2, workerRun env disk st (f :: rest) = workerRun env disk st2 rest ∧
        st2.uploadOps = st.uploadOps + 1 ∧
        ("Upload error: " ++ env.uploadResult f) ∈ st2.errors ∧
        st2.current = "" ∧ f ∉ st2.syncing) := by
  constructor
  · intro hstab
    rw [workerRun_cons_timeout env disk st f rest lf hfind hpr hstab]
    refine ⟨by simp, by simp, ?_, by simp⟩
    simp only [finallyCleanup, updateStatus]
    split <;> split <;> simp_all
  · intro hstab hfail
    refine ⟨finallyCleanup
      (uploadAttempt env
        { updateStatus { st with printingPaused := false } "syncing" with
            current := f } f lf) f, ?_, ?_, ?_, ?_, ?_⟩
    · exact workerRun_cons_upload env disk st f rest lf hfind hpr hstab
    · simp
    · rw [finallyCleanup_errors, uploadAttempt_errors_fail env _ f lf hfail]
      exact mem_setAdd.mpr (Or.inr rfl)
    · simp
    · rw [finallyCleanup_syncing]
      intro hmem
      exact (mem_discard.mp hmem).2 rfl

/-- C6 witness: the amended theorem applied in both modes — a file
that never stabilizes (first application) and a file whose upload
fails (second application). -/
theorem C6_error_handling_witness :
    ((workerRun
        ⟨fun _ => "h", fun _ => "Done", fun _ => true, fun _ => false,
          false⟩
        [⟨"a.ctb", 1, 10, [1]⟩]
        ⟨[], [], ["a.ctb", "b.ctb"], [], "", false, "offline", [], 0, 0⟩
        ["a.ctb", "b.ctb"]).uploadOps = 0 ∧
      (workerRun
        ⟨fun _ => "h", fun _ => "Done", fun _ => true, fun _ => false,
          false⟩
        [⟨"a.ctb", 1, 10, [1]⟩]
        ⟨[], [], ["a.ctb", "b.ctb"], [], "", false, "offline", [], 0, 0⟩
        ["a.ctb", "b.ctb"]).syncing =
        discard ["a.ctb", "b.ctb"] "a.ctb" ∧
      "error" ∈ (workerRun
        ⟨fun _ => "h", fun _ => "Done", fun _ => true, fun _ => false,
          false⟩
        [⟨"a.ctb", 1, 10, [1]⟩]
        ⟨[], [], ["a.ctb", "b.ctb"], [], "", false, "offline", [], 0, 0⟩
        ["a.ctb", "b.ctb"]).statusLog ∧
      (workerRun
        ⟨fun _ => "h", fun _ => "Done", fun _ => true, fun _ => false,
          false⟩
        [⟨"a.ctb", 1, 10, [1]⟩]
        ⟨[], [], ["a.ctb", "b.ctb"], [], "", false, "offline", [], 0, 0⟩
        ["a.ctb", "b.ctb"]).current = "") ∧
    (∃ st2, workerRun
        ⟨fun _ => "h", fun _ => "M28 Error: x", fun _ => true,
          fun _ => true, false⟩
        [⟨"c.ctb", 3, 30, [3]⟩]
        ⟨[], [], ["c.ctb"], [], "", false, "offline", [], 0, 0⟩
        ["c.ctb"] =
          workerRun
            ⟨fun _ => "h", fun _ => "M28 Error: x", fun _ => true,
              fun _ => true, false⟩
            [⟨"c.ctb", 3, 30, [3]⟩] st2 [] ∧
        st2.uploadOps = 0 + 1 ∧
        ("Upload error: " ++ "M28 Error: x") ∈ st2.errors ∧
        st2.current = "" ∧ "c.ctb" ∉ st2.syncing) :=
  ⟨(C6_error_handling
      ⟨fun _ => "h", fun _ => "Done", fun _ => true, fun _ => false, false⟩
      [⟨"a.ctb", 1, 10, [1]⟩]
      ⟨[], [], ["a.ctb", "b.ctb"], [], "", false, "offline", [], 0, 0⟩
      "a.ctb" ["b.ctb"] ⟨"a.ctb", 1, 10, [1]⟩ rfl rfl).1 rfl,
   (C6_error_handling
      ⟨fun _ => "h", fun _ => "M28 Error: x", fun _ => true, fun _ => true,
        false⟩
      [⟨"c.ctb", 3, 30, [3]⟩]
      ⟨[], [], ["c.ctb"], [], "", false, "offline", [], 0, 0⟩
      "c.ctb" [] ⟨"c.ctb", 3, 30, [3]⟩ rfl rfl).2 rfl (by decide)⟩

/-! ## Lemmas about the scan and the metadata dictionary -/

theorem lookupMeta_setMeta_self (m : List (String × Fingerprint))
    (k : String) (v : Fingerprint) : lookupMeta (setMeta m k v) k = some v := by
  simp [lookupMeta, setMeta]

theorem lookupMeta_filter_other (k n : String) (h : k ≠ n) :
    ∀ m : List (String × Fingerprint),
      lookupMeta (m.filter (fun p => p.1 ≠ k)) n = lookupMeta m n := by
  intro m
  induction m with
  | nil => rfl
  | cons a tl ih =>
    rw [List.filter_cons]
    by_cases hak : a.1 = k
    · have hd : decide (a.1 ≠ k) = false := by simp [hak]
      rw [hd]
      simp only [Bool.false_eq_true, if_false]
      have han : (a.1 == n) = false := by
        rw [beq_eq_false_iff_ne, hak]
        exact h
      unfold lookupMeta
      rw [List.find?_cons_of_neg]
      · exact ih
      · simp [han]
    · have hd : decide (a.1 ≠ k) = true := by simp [hak]
      rw [hd]
      simp only [if_true]
      by_cases han : a.1 = n
      · unfold lookupMeta
        have hb : (a.1 == n) = true := by simp [han]
        rw [List.find?_cons_of_pos, List.find?_cons_of_pos] <;> simp [hb]
      · have hb : (a.1 == n) = false := by simp [han]
        unfold lookupMeta
        rw [List.find?_cons_of_neg, List.find?_cons_of_neg]
        · exact ih
        · simp [hb]
        · simp [hb]

theorem lookupMeta_setMeta_other (m : List (String × Fingerprint))
    (k n : String) (v : Fingerprint) (h : k ≠ n) :
    lookupMeta (setMeta m k v) n = lookupMeta m n := by
  unfold setMeta
  have hb : ((k, v).1 == n) = false := by
    rw [beq_eq_false_iff_ne]
    exact h
  unfold lookupMeta
  rw [List.find?_cons_of_neg]
  · exact lookupMeta_filter_other k n h m
  · simp [hb]

theorem scanFile_eq_none (env : Env) (meta : List (String × Fingerprint))
    (f : LocalFile) (h : lookupMeta meta f.name = none) :
    scanFile env meta f =
      (setMeta meta f.name ⟨f.mtime, f.size, env.hashFn f.content⟩,
        (f.name, ⟨f.mtime, f.size, env.hashFn f.content⟩)) := by
  unfold scanFile
  rw [h]

theorem scanFile_eq_fresh (env : Env) (meta : List (String × Fingerprint))
    (f : LocalFile) (s : Fingerprint) (h : lookupMeta meta f.name = some s)
    (hc : s.checksum = "" ∨ s.mtime ≠ f.mtime ∨ s.size ≠ f.size) :
    scanFile env meta f =
      (setMeta meta f.name ⟨f.mtime, f.size, env.hashFn f.content⟩,
        (f.name, ⟨f.mtime, f.size, env.hashFn f.content⟩)) := by
  unfold scanFile
  rw [h]
  show (if s.checksum = "" ∨ s.mtime ≠ f.mtime ∨ s.size ≠ f.size then
      (setMeta meta f.name ⟨f.mtime, f.size, env.hashFn f.content⟩,
        (f.name, (⟨f.mtime, f.size, env.hashFn f.content⟩ : Fingerprint)))
    else (meta, (f.name, (⟨f.mtime, f.size, s.checksum⟩ : Fingerprint)))) = _
  rw [if_pos hc]

theorem scanFile_eq_keep (env : Env) (meta : List (String × Fingerprint))
    (f : LocalFile) (s : Fingerprint) (h : lookupMeta meta f.name = some s)
    (hc : ¬(s.checksum = "" ∨ s.mtime ≠ f.mtime ∨ s.size ≠ f.size)) :
    scanFile env meta f = (meta, (f.name, ⟨f.mtime, f.size, s.checksum⟩)) := by
  unfold scanFile
  rw [h]
  show (if s.checksum = "" ∨ s.mtime ≠ f.mtime ∨ s.size ≠ f.size then
      (setMeta meta f.name ⟨f.mtime, f.size, env.hashFn f.content⟩,
        (f.name, (⟨f.mtime, f.size, env.hashFn f.content⟩ : Fingerprint)))
    else (meta, (f.name, (⟨f.mtime, f.size, s.checksum⟩ : Fingerprint)))) = _
  rw [if_neg hc]

theorem scanFile_name (env : Env) (meta : List (String × Fingerprint))
    (f : LocalFile) : (scanFile env meta f).2.1 = f.name := by
  cases h : lookupMeta meta f.name with
  | none => rw [scanFile_eq_none env meta f h]
  | some s =>
    by_cases hc : s.checksum = "" ∨ s.mtime ≠ f.mtime ∨ s.size ≠ f.size
    · rw [scanFile_eq_fresh env meta f s h hc]
    · rw [scanFile_eq_keep env meta f s h hc]

theorem scanFile_mtime (env : Env) (meta : List (String × Fingerprint))
    (f : LocalFile) : (scanFile env meta f).2.2.mtime = f.mtime := by
  cases h : lookupMeta meta f.name with
  | none => rw [scanFile_eq_none env meta f h]
  | some s =>
    by_cases hc : s.checksum = "" ∨ s.mtime ≠ f.mtime ∨ s.size ≠ f.size
    · rw [scanFile_eq_fresh env meta f s h hc]
    · rw [scanFile_eq_keep env meta f s h hc]

/-- After `scanFile`, the stored fingerprint for the scanned file agrees
with the produced record on checksum and carries the on-disk mtime. -/
theorem scanFile_lookup_self (env : Env) (meta : List (String × Fingerprint))
    (f : LocalFile) :
    ∃ s, lookupMeta (scanFile env meta f).1 f.name = some s ∧
      s.checksum = (scanFile env meta f).2.2.checksum ∧
      s.mtime = f.mtime := by
  cases h : lookupMeta meta f.name with
  | none =>
    rw [scanFile_eq_none env meta f h]
    exact ⟨_, lookupMeta_setMeta_self meta f.name _, rfl, rfl⟩
  | some s =>
    by_cases hc : s.checksum = "" ∨ s.mtime ≠ f.mtime ∨ s.size ≠ f.size
    · rw [scanFile_eq_fresh env meta f s h hc]
      exact ⟨_, lookupMeta_setMeta_self meta f.name _, rfl, rfl⟩
    · rw [scanFile_eq_keep env meta f s h hc]
      push_neg at hc
      exact ⟨s, h, rfl, hc.2.1⟩

theorem scanFile_lookup_other (env : Env)
    (meta : List (String × Fingerprint)) (f : LocalFile) (n : String)
    (h : f.name ≠ n) :
    lookupMeta (scanFile env meta f).1 n = lookupMeta meta n := by
  cases h0 : lookupMeta meta f.name with
  | none =>
    rw [scanFile_eq_none env meta f h0]
    exact lookupMeta_setMeta_other meta f.name n _ h
  | some s =>
    by_cases hc : s.checksum = "" ∨ s.mtime ≠ f.mtime ∨ s.size ≠ f.size
    · rw [scanFile_eq_fresh env meta f s h0 hc]
      exact lookupMeta_setMeta_other meta f.name n _ h
    · rw [scanFile_eq_keep env meta f s h0 hc]

/-- Names of the scanned records: exactly the folder entries with a
recognized extension, in order. -/
theorem scanLocalFiles_names (env : Env) :
    ∀ (disk : List LocalFile) (meta : List (String × Fingerprint)),
      (scanLocalFiles env meta disk).2.map (fun p => p.1) =
        (disk.filter (fun lf => scanExt lf.name)).map (fun lf => lf.name) := by
  intro disk
  induction disk with
  | nil => intro meta; rfl
  | cons f fs ih =>
    intro meta
    rw [scanLocalFiles]
    by_cases he : scanExt f.name
    · rw [if_pos he]
      show ((scanFile env meta f).2 ::
          (scanLocalFiles env (scanFile env meta f).1 fs).2).map
            (fun p => p.1) = _
      rw [List.map_cons, scanFile_name, ih, List.filter_cons, if_pos he,
        List.map_cons]
    · rw [if_neg he, List.filter_cons, if_neg he]
      exact ih meta

theorem scanLocalFiles_cons_ext (env : Env)
    (meta : List (String × Fingerprint)) (f : LocalFile)
    (fs : List LocalFile) (he : scanExt f.name = true) :
    scanLocalFiles env meta (f :: fs) =
      ((scanLocalFiles env (scanFile env meta f).1 fs).1,
        (scanFile env meta f).2 ::
          (scanLocalFiles env (scanFile env meta f).1 fs).2) := by
  rw [scanLocalFiles, if_pos he]

theorem scanLocalFiles_cons_noext (env : Env)
    (meta : List (String × Fingerprint)) (f : LocalFile)
    (fs : List LocalFile) (he : scanExt f.name = false) :
    scanLocalFiles env meta (f :: fs) = scanLocalFiles env meta fs := by
  rw [scanLocalFiles, if_neg (by simp [he])]

/-- Scanning files whose names all differ from `n` leaves the stored
fingerprint of `n` untouched. -/
theorem scanLocalFiles_lookup_other (env : Env) :
    ∀ (disk : List LocalFile) (meta : List (String × Fingerprint))
      (n : String), (∀ lf ∈ disk, lf.name ≠ n) →
      lookupMeta (scanLocalFiles env meta disk).1 n = lookupMeta meta n := by
  intro disk
  induction disk with
  | nil => intro meta n _; rfl
  | cons f fs ih =>
    intro meta n hns
    by_cases he : scanExt f.name
    · rw [scanLocalFiles_cons_ext env meta f fs he]
      have h1 := ih (scanFile env meta f).1 n
        (fun lf hlf => hns lf (List.mem_cons_of_mem f hlf))
      rw [h1]
      exact scanFile_lookup_other env meta f n (hns f (List.mem_cons_self f fs))
    · rw [scanLocalFiles_cons_noext env meta f fs (by simpa using he)]
      exact ih meta n (fun lf hlf => hns lf (List.mem_cons_of_mem f hlf))

/-- Every record the scan produces corresponds to a folder entry of the
same name whose on-disk mtime it carries, and after the scan, the
stored fingerprint of that name agrees with the record on checksum and
mtime. -/
theorem scanLocalFiles_entry (env : Env) :
    ∀ (disk : List LocalFile) (meta : List (String × Fingerprint))
      (n : String) (fp : Fingerprint),
      (disk.map (fun lf => lf.name)).Nodup →
      (n, fp) ∈ (scanLocalFiles env meta disk).2 →
      ∃ lf, disk.find? (fun x => x.name == n) = some lf ∧
        lf.mtime = fp.mtime ∧
        ∃ s, lookupMeta (scanLocalFiles env meta disk).1 n = some s ∧
          s.checksum = fp.checksum ∧ s.mtime = fp.mtime := by
  intro disk
  induction disk with
  | nil =>
    intro meta n fp _ hmem
    exact absurd hmem (by simp [scanLocalFiles])
  | cons f fs ih =>
    intro meta n fp hnodup hmem
    have hnodup2 : (fs.map (fun lf => lf.name)).Nodup :=
      (List.nodup_cons.mp (by simpa using hnodup)).2
    have hfnotin : f.name ∉ fs.map (fun lf => lf.name) :=
      (List.nodup_cons.mp (by simpa using hnodup)).1
    by_cases he : scanExt f.name
    · rw [scanLocalFiles_cons_ext env meta f fs he] at hmem ⊢
      rcases List.mem_cons.mp hmem with heq | hmem2
      · -- the head record
        have hn : n = f.name := by
          have := congrArg Prod.fst heq
          simpa [scanFile_name] using this
        have hfp : fp = (scanFile env meta f).2.2 := by
          have := congrArg Prod.snd heq
          simpa using this
        subst hn
        refine ⟨f, ?_, ?_, ?_⟩
        · rw [List.find?_cons_of_pos]
          simp
        · rw [hfp, scanFile_mtime]
        · obtain ⟨s, hs, hsc, hsm⟩ := scanFile_lookup_self env meta f
          refine ⟨s, ?_, ?_, ?_⟩
          · rw [scanLocalFiles_lookup_other env fs (scanFile env meta f).1
              f.name ?_]
            · exact hs
            · intro lf hlf hcon
              exact hfnotin (hcon ▸ List.mem_map_of_mem (fun x => x.name) hlf)
          · rw [hsc, hfp]
          · rw [hsm, hfp, scanFile_mtime]
      · -- a record from the tail
        obtain ⟨lf, hfind, hmt, s, hlook, hsc, hsm⟩ :=
          ih (scanFile env meta f).1 n fp hnodup2 hmem2
        have hn_in : n ∈ fs.map (fun x => x.name) := by
          have h1 : n ∈ ((scanLocalFiles env (scanFile env meta f).1 fs).2.map
              (fun p => p.1)) := List.mem_map_of_mem (fun p => p.1) hmem2
          rw [scanLocalFiles_names] at h1
          obtain ⟨x, hx1, hx2⟩ := List.mem_map.mp h1
          exact hx2 ▸ List.mem_map_of_mem (fun y => y.name)
            (List.mem_of_mem_filter hx1)
        have hne : f.name ≠ n := fun hcon => hfnotin (hcon ▸ hn_in)
        refine ⟨lf, ?_, hmt, s, hlook, hsc, hsm⟩
        rw [List.find?_cons_of_neg]
        · exact hfind
        · simp [hne]
    · rw [scanLocalFiles_cons_noext env meta f fs (by simpa using he)]
        at hmem ⊢
      obtain ⟨lf, hfind, hmt, s, hlook, hsc, hsm⟩ :=
        ih meta n fp hnodup2 hmem
      have hn_in : n ∈ fs.map (fun x => x.name) := by
        have h1 : n ∈ ((scanLocalFiles env meta fs).2.map (fun p => p.1)) :=
          List.mem_map_of_mem (fun p => p.1) hmem
        rw [scanLocalFiles_names] at h1
        obtain ⟨x, hx1, hx2⟩ := List.mem_map.mp h1
        exact hx2 ▸ List.mem_map_of_mem (fun y => y.name)
          (List.mem_of_mem_filter hx1)
      have hne : f.name ≠ n := fun hcon => hfnotin (hcon ▸ hn_in)
      refine ⟨lf, ?_, hmt, s, hlook, hsc, hsm⟩
      rw [List.find?_cons_of_neg]
      · exact hfind
      · simp [hne]

/-- After the scan, no scanned record is judged modified: the scan has
just refreshed (or validated) the stored fingerprint it is compared
against. -/
theorem scanLocalFiles_entry_unmodified (env : Env) (disk : List LocalFile)
    (meta : List (String × Fingerprint)) (n : String) (fp : Fingerprint)
    (hnodup : (disk.map (fun lf => lf.name)).Nodup)
    (hmem : (n, fp) ∈ (scanLocalFiles env meta disk).2) :
    isFileModified (scanLocalFiles env meta disk).1 n fp
      (diskMtimeOf disk n fp.mtime) = false := by
  obtain ⟨lf, hfind, hmt, s, hlook, hsc, hsm⟩ :=
    scanLocalFiles_entry env disk meta n fp hnodup hmem
  have hdm : diskMtimeOf disk n fp.mtime = fp.mtime := by
    unfold diskMtimeOf
    rw [hfind]
    exact hmt
  unfold isFileModified
  rw [hlook, hdm]
  simp [hsc, hsm]

@[simp]
theorem updateStatus_metadata (st : AgentState) (n : String) :
    (updateStatus st n).metadata = st.metadata := rfl

theorem scanNames_eq_localNames (env : Env)
    (meta : List (String × Fingerprint)) (disk : List LocalFile) :
    (scanLocalFiles env meta disk).2.map (fun p => p.1) =
      localNamesOf disk :=
  scanLocalFiles_names env disk meta

/-! ## Lemmas about deletions, the queue and the prepared pass state -/

theorem runDeletions_syncing (env : Env) :
    ∀ (ds : List String) (st : AgentState),
      (runDeletions env st ds).syncing = st.syncing := by
  intro ds
  induction ds with
  | nil => intro st; rfl
  | cons d tl ih =>
    intro st
    rw [runDeletions]
    split <;> (rw [ih]; try rfl)

theorem runDeletions_current (env : Env) :
    ∀ (ds : List String) (st : AgentState),
      (runDeletions env st ds).current = st.current := by
  intro ds
  induction ds with
  | nil => intro st; rfl
  | cons d tl ih =>
    intro st
    rw [runDeletions]
    split <;> (rw [ih]; try rfl)

theorem runDeletions_printingPaused (env : Env) :
    ∀ (ds : List String) (st : AgentState),
      (runDeletions env st ds).printingPaused = st.printingPaused := by
  intro ds
  induction ds with
  | nil => intro st; rfl
  | cons d tl ih =>
    intro st
    rw [runDeletions]
    split <;> (rw [ih]; try rfl)

theorem runDeletions_uploadOps (env : Env) :
    ∀ (ds : List String) (st : AgentState),
      (runDeletions env st ds).uploadOps = st.uploadOps := by
  intro ds
  induction ds with
  | nil => intro st; rfl
  | cons d tl ih =>
    intro st
    rw [runDeletions]
    split <;> (rw [ih]; try rfl)

theorem runDeletions_deleteOps (env : Env) :
    ∀ (ds : List String) (st : AgentState),
      (runDeletions env st ds).deleteOps = st.deleteOps + ds.length := by
  intro ds
  induction ds with
  | nil => intro st; rfl
  | cons d tl ih =>
    intro st
    rw [runDeletions]
    split <;> (rw [ih]; simp; try omega)

/-- With every deletion succeeding, the device ends up holding exactly
its previous files minus the deleted ones. -/
theorem runDeletions_device (env : Env) (hdel : ∀ d, env.deleteOk d = true) :
    ∀ (ds : List String) (st : AgentState) (x : String),
      x ∈ (runDeletions env st ds).device ↔ x ∈ st.device ∧ x ∉ ds := by
  intro ds
  induction ds with
  | nil => intro st x; simp [runDeletions]
  | cons d tl ih =>
    intro st x
    rw [runDeletions]
    rw [if_pos (hdel d)]
    rw [ih]
    simp only [AgentState.device] at *
    rw [mem_discard]
    simp only [List.mem_cons]
    constructor
    · rintro ⟨⟨hx, hxd⟩, hxtl⟩
      exact ⟨hx, fun hc => hc.elim hxd hxtl⟩
    · rintro ⟨hx, hc⟩
      exact ⟨⟨hx, fun h => hc (Or.inl h)⟩, fun h => hc (Or.inr h)⟩

/-- Deleting keys other than `n` does not change the stored fingerprint
of `n`. -/
theorem runDeletions_lookup (env : Env) :
    ∀ (ds : List String) (st : AgentState) (n : String), n ∉ ds →
      lookupMeta (runDeletions env st ds).metadata n =
        lookupMeta st.metadata n := by
  intro ds
  induction ds with
  | nil => intro st n _; rfl
  | cons d tl ih =>
    intro st n hn
    have hdn : d ≠ n := fun hc => hn (hc ▸ List.mem_cons_self d tl)
    have hntl : n ∉ tl := fun hc => hn (List.mem_cons_of_mem d hc)
    rw [runDeletions]
    split
    · rw [ih _ n hntl]
      exact lookupMeta_filter_other d n hdn st.metadata
    · rw [ih _ n hntl]
      rfl

theorem mem_addAll :
    ∀ (q : List (String × Fingerprint)) (s : List String) (x : String),
      x ∈ addAll s q ↔ x ∈ s ∨ x ∈ q.map (fun p => p.1) := by
  intro q
  induction q with
  | nil => intro s x; simp [addAll]
  | cons p tl ih =>
    intro s x
    show x ∈ addAll (setAdd s p.1) tl ↔ _
    rw [ih]
    rw [mem_setAdd]
    simp only [List.map_cons, List.mem_cons]
    tauto

/-- Every name the folder listing produced can be found on the disk. -/
theorem find_of_mem_localNames (disk : List LocalFile) (n : String)
    (h : n ∈ localNamesOf disk) :
    (disk.find? (fun x => x.name == n)).isSome := by
  unfold localNamesOf at h
  obtain ⟨lf, hlf, rfl⟩ := List.mem_map.mp h
  rw [List.find?_isSome]
  exact ⟨lf, List.mem_of_mem_filter hlf, by simp⟩

theorem passAfterDeletions_syncing (env : Env) (disk : List LocalFile)
    (policy : Bool) (st : AgentState) :
    (passAfterDeletions env disk policy st).syncing = st.syncing := by
  unfold passAfterDeletions
  cases policy
  · rfl
  · simp [runDeletions_syncing]

theorem passAfterDeletions_current (env : Env) (disk : List LocalFile)
    (policy : Bool) (st : AgentState) :
    (passAfterDeletions env disk policy st).current = st.current := by
  unfold passAfterDeletions
  cases policy
  · rfl
  · simp [runDeletions_current]

theorem passAfterDeletions_printingPaused (env : Env) (disk : List LocalFile)
    (policy : Bool) (st : AgentState) :
    (passAfterDeletions env disk policy st).printingPaused =
      st.printingPaused := by
  unfold passAfterDeletions
  cases policy
  · rfl
  · simp [runDeletions_printingPaused]

theorem passAfterDeletions_uploadOps (env : Env) (disk : List LocalFile)
    (policy : Bool) (st : AgentState) :
    (passAfterDeletions env disk policy st).uploadOps = st.uploadOps := by
  unfold passAfterDeletions
  cases policy
  · rfl
  · simp [runDeletions_uploadOps]

theorem passAfterDeletions_device (env : Env) (disk : List LocalFile)
    (policy : Bool) (st : AgentState)
    (hdel : ∀ d, env.deleteOk d = true) (x : String) :
    x ∈ (passAfterDeletions env disk policy st).device ↔
      x ∈ st.device ∧
        (policy = true → x ∉ toDelete st.device (localNamesOf disk)) := by
  unfold passAfterDeletions
  cases policy
  · simp
  · simp only [scanNames_eq_localNames, updateStatus_metadata]
    rw [if_pos trivial]
    rw [runDeletions_device env hdel]
    simp

theorem passAfterDeletions_lookup (env : Env) (disk : List LocalFile)
    (policy : Bool) (st : AgentState) (n : String)
    (hn : n ∈ localNamesOf disk) :
    lookupMeta (passAfterDeletions env disk policy st).metadata n =
      lookupMeta (scanLocalFiles env st.metadata disk).1 n := by
  unfold passAfterDeletions
  cases policy
  · rfl
  · simp only [scanNames_eq_localNames, updateStatus_metadata]
    rw [if_pos trivial]
    rw [runDeletions_lookup]
    · unfold toDelete
      intro hc
      have h1 := List.mem_filter.mp hc
      have h2 := h1.2
      simp only [Bool.not_eq_true'] at h2
      exact absurd (List.elem_iff.mpr hn) (by simpa using h2)

/-! ## Worker lemmas for a clean environment -/

/-- When the device is not printing and every queued file stabilizes,
no worker iteration returns early: the whole queue is processed. -/
theorem processedFiles_all (env : Env) (disk : List LocalFile)
    (hpr : env.printing = false) :
    ∀ q : List String, (∀ g ∈ q, env.stabilizes g = true) →
      processedFiles env disk q = q := by
  intro q
  induction q with
  | nil => intro _; rfl
  | cons f rest ih =>
    intro hstab
    rw [processedFiles]
    cases hfind : disk.find? (fun lf => lf.name == f) with
    | none =>
      rw [ih (fun g hg => hstab g (List.mem_cons_of_mem f hg))]
    | some lf =>
      rw [hpr]
      simp only [Bool.false_eq_true, if_false]
      rw [hstab f (List.mem_cons_self f rest)]
      rw [ih (fun g hg => hstab g (List.mem_cons_of_mem f hg))]
      simp

/-- Running the worker on (a snapshot of) the pending set itself leaves
the pending set empty, provided no iteration returns early. -/
theorem workerRun_queue_cleared (env : Env) (disk : List LocalFile)
    (st : AgentState) (hpr : env.printing = false)
    (hstab : ∀ g ∈ st.syncing, env.stabilizes g = true) :
    (workerRun env disk st st.syncing).syncing = [] := by
  rw [List.eq_nil_iff_forall_not_mem]
  intro x hx
  have hmem : x ∈ st.syncing :=
    workerRun_syncing_subset env disk st.syncing st x hx
  have hproc : processedFiles env disk st.syncing = st.syncing :=
    processedFiles_all env disk hpr st.syncing hstab
  exact workerRun_processed_not_pending env disk st.syncing st x
    (by rw [hproc]; exact hmem) hx

/-- With a non-printing device, every queued file stabilizing, uploads
succeeding and every queued file present on disk, the device ends up
holding its previous files plus the whole queue. -/
theorem workerRun_device (env : Env) (disk : List LocalFile)
    (hpr : env.printing = false)
    (hup : ∀ g, uploadSucceeded (env.uploadResult g) = true) :
    ∀ (q : List String) (st : AgentState),
      (∀ g ∈ q, env.stabilizes g = true) →
      (∀ g ∈ q, (disk.find? (fun x => x.name == g)).isSome) →
      ∀ x, x ∈ (workerRun env disk st q).device ↔ x ∈ st.device ∨ x ∈ q := by
  intro q
  induction q with
  | nil => intro st _ _ x; simp [workerRun]
  | cons f rest ih =>
    intro st hstab hfound x
    obtain ⟨lf, hlf⟩ := Option.isSome_iff_exists.mp
      (hfound f (List.mem_cons_self f rest))
    rw [workerRun_cons_upload env disk st f rest lf hlf hpr
      (hstab f (List.mem_cons_self f rest))]
    rw [ih _ (fun g hg => hstab g (List.mem_cons_of_mem f hg))
      (fun g hg => hfound g (List.mem_cons_of_mem f hg))]
    rw [finallyCleanup_device, uploadAttempt_device_ok env _ f lf (hup f)]
    show x ∈ setAdd (updateStatus { st with printingPaused := false }
      "syncing").device f ∨ x ∈ rest ↔ _
    rw [updateStatus_device]
    rw [mem_setAdd]
    simp only [List.mem_cons]
    tauto

/-- With a non-printing device the worker never leaves the
printing-paused flag set. -/
theorem workerRun_pp (env : Env) (disk : List LocalFile)
    (hpr : env.printing = false) :
    ∀ (q : List String) (st : AgentState), st.printingPaused = false →
      (workerRun env disk st q).printingPaused = false := by
  intro q
  induction q with
  | nil => intro st h; exact h
  | cons f rest ih =>
    intro st h
    cases hfind : disk.find? (fun lf => lf.name == f) with
    | none =>
      rw [workerRun_cons_missing env disk st f rest hfind]
      exact ih _ h
    | some lf =>
      cases hstab : env.stabilizes f with
      | true =>
        rw [workerRun_cons_upload env disk st f rest lf hfind hpr hstab]
        refine ih _ ?_
        rw [finallyCleanup_printingPaused, uploadAttempt_printingPaused]
        rfl
      | false =>
        rw [workerRun_cons_timeout env disk st f rest lf hfind hpr hstab]
        rfl

/-! ## Projections of the prepared pass state -/

theorem passPrepared_device (env : Env) (disk : List LocalFile)
    (policy : Bool) (st : AgentState) :
    (passPrepared env disk policy st).device =
      (passAfterDeletions env disk policy st).device := rfl

theorem passPrepared_current (env : Env) (disk : List LocalFile)
    (policy : Bool) (st : AgentState) :
    (passPrepared env disk policy st).current =
      (passAfterDeletions env disk policy st).current := rfl

theorem passPrepared_printingPaused (env : Env) (disk : List LocalFile)
    (policy : Bool) (st : AgentState) :
    (passPrepared env disk policy st).printingPaused =
      (passAfterDeletions env disk policy st).printingPaused := rfl

theorem passPrepared_uploadOps (env : Env) (disk : List LocalFile)
    (policy : Bool) (st : AgentState) :
    (passPrepared env disk policy st).uploadOps =
      (passAfterDeletions env disk policy st).uploadOps := rfl

theorem passPrepared_deleteOps (env : Env) (disk : List LocalFile)
    (policy : Bool) (st : AgentState) :
    (passPrepared env disk policy st).deleteOps =
      (passAfterDeletions env disk policy st).deleteOps := rfl

theorem passPrepared_syncing (env : Env) (disk : List LocalFile)
    (policy : Bool) (st : AgentState) :
    (passPrepared env disk policy st).syncing =
      addAll (passAfterDeletions env disk policy st).syncing
        (queuedFiles disk (passAfterDeletions env disk policy st)
          (scanLocalFiles env st.metadata disk).2) := rfl

theorem contains_mem {l : List String} {a : String} :
    l.contains a = true ↔ a ∈ l := by
  show l.elem a = true ↔ a ∈ l
  exact List.elem_iff

/-- After one reconciliation pass in a clean environment (device not
printing, all files stabilizing, all uploads and deletions succeeding)
from an idle engine state, the pending set is empty, the pause flag is
clear, every local model file is on the device, and — when the deletion
policy is on — every device file is a local model file. -/
theorem pass_clean (env : Env) (disk : List LocalFile) (policy : Bool)
    (st : AgentState)
    (hpr : env.printing = false)
    (hstab : ∀ g, env.stabilizes g = true)
    (hup : ∀ g, uploadSucceeded (env.uploadResult g) = true)
    (hdel : ∀ d, env.deleteOk d = true)
    (hpp : st.printingPaused = false) (hcur : st.current = "")
    (hsync : st.syncing = []) :
    (syncAllPass env disk policy st).printingPaused = false ∧
    (syncAllPass env disk policy st).syncing = [] ∧
    (∀ n, n ∈ localNamesOf disk → syncExt n = true →
      n ∈ (syncAllPass env disk policy st).device) ∧
    (policy = true → ∀ d ∈ (syncAllPass env disk policy st).device,
      d ∈ localNamesOf disk) := by
  have hpass : syncAllPass env disk policy st =
      (if (!(passPrepared env disk policy st).syncing.isEmpty &&
          ((passPrepared env disk policy st).current == "")) = true then
        workerRun env disk (passPrepared env disk policy st)
          (passPrepared env disk policy st).syncing
      else passPrepared env disk policy st) := by
    rw [syncAllPass, if_neg (by simp [hpp])]
  set P := passPrepared env disk policy st with hPdef
  set Q := queuedFiles disk (passAfterDeletions env disk policy st)
    (scanLocalFiles env st.metadata disk).2 with hQdef
  have hPsync : P.syncing = addAll [] Q := by
    rw [hPdef, passPrepared_syncing, passAfterDeletions_syncing, hsync]
  have hPcur : P.current = "" := by
    rw [hPdef, passPrepared_current, passAfterDeletions_current, hcur]
  have hPpp : P.printingPaused = false := by
    rw [hPdef, passPrepared_printingPaused,
      passAfterDeletions_printingPaused, hpp]
  have hPdevice : ∀ x, x ∈ P.device ↔ x ∈ st.device ∧
      (policy = true → x ∉ toDelete st.device (localNamesOf disk)) := by
    intro x
    rw [hPdef, passPrepared_device]
    exact passAfterDeletions_device env disk policy st hdel x
  have hQsub : ∀ x ∈ P.syncing, x ∈ localNamesOf disk := by
    intro x hx
    rw [hPsync] at hx
    rcases (mem_addAll Q [] x).mp hx with hx0 | hx1
    · exact absurd hx0 (List.not_mem_nil x)
    · obtain ⟨p, hp, rfl⟩ := List.mem_map.mp hx1
      have hp2 : p ∈ (scanLocalFiles env st.metadata disk).2 :=
        List.mem_of_mem_filter hp
      rw [← scanNames_eq_localNames env st.metadata disk]
      exact List.mem_map_of_mem (fun q => q.1) hp2
  have hfound : ∀ g ∈ P.syncing,
      (disk.find? (fun x => x.name == g)).isSome :=
    fun g hg => find_of_mem_localNames disk g (hQsub g hg)
  have hstabq : ∀ g ∈ P.syncing, env.stabilizes g = true :=
    fun g _ => hstab g
  have hNotQueued : ∀ n, n ∈ localNamesOf disk → syncExt n = true →
      n ∉ P.syncing → n ∈ P.device := by
    intro n hn hsx hnq
    rw [← scanNames_eq_localNames env st.metadata disk] at hn
    obtain ⟨p, hp, hpn⟩ := List.mem_map.mp hn
    have hpq : p ∉ Q := by
      intro hc
      apply hnq
      rw [hPsync]
      refine (mem_addAll Q [] n).mpr (Or.inr ?_)
      rw [← hpn]
      exact List.mem_map_of_mem (fun q => q.1) hc
    have hpred : (syncExt p.1 &&
        (!((passAfterDeletions env disk policy st).device.contains p.1) ||
          isFileModified (passAfterDeletions env disk policy st).metadata
            p.1 p.2 (diskMtimeOf disk p.1 p.2.mtime))) = false := by
      by_cases hb : (syncExt p.1 &&
          (!((passAfterDeletions env disk policy st).device.contains p.1) ||
            isFileModified (passAfterDeletions env disk policy st).metadata
              p.1 p.2 (diskMtimeOf disk p.1 p.2.mtime))) = true
      · exact absurd (List.mem_filter.mpr ⟨hp, hb⟩) hpq
      · exact Bool.eq_false_iff.mpr hb
    rw [hpn, hsx] at hpred
    simp only [Bool.true_and, Bool.or_eq_false_iff,
      Bool.not_eq_false'] at hpred
    have hcont := hpred.1
    rw [hPdef, passPrepared_device]
    exact contains_mem.mp hcont
  have hDevLocal : policy = true → ∀ d ∈ P.device,
      d ∈ localNamesOf disk := by
    intro hpol d hd
    rcases (hPdevice d).mp hd with ⟨hdev, hnd⟩
    have hnd2 := hnd hpol
    unfold toDelete at hnd2
    by_cases hc : d ∈ localNamesOf disk
    · exact hc
    · exfalso
      apply hnd2
      refine List.mem_filter.mpr ⟨hdev, ?_⟩
      simp only [Bool.not_eq_true']
      rw [Bool.eq_false_iff]
      intro helem
      exact hc (contains_mem.mp helem)
  rw [hpass]
  by_cases hg : (!P.syncing.isEmpty && (P.current == "")) = true
  · rw [if_pos hg]
    refine ⟨workerRun_pp env disk hpr P.syncing P hPpp,
      workerRun_queue_cleared env disk P hpr hstabq, ?_, ?_⟩
    · intro n hn hsx
      rw [workerRun_device env disk hpr hup P.syncing P hstabq hfound n]
      by_cases hq : n ∈ P.syncing
      · exact Or.inr hq
      · exact Or.inl (hNotQueued n hn hsx hq)
    · intro hpol d hd
      rw [workerRun_device env disk hpr hup P.syncing P hstabq hfound d]
        at hd
      rcases hd with hd1 | hd2
      · exact hDevLocal hpol d hd1
      · exact hQsub d hd2
  · rw [if_neg hg]
    have hsy : P.syncing = [] := by
      by_cases he : P.syncing.isEmpty = true
      · exact List.isEmpty_iff.mp he
      · exfalso
        apply hg
        rw [Bool.and_eq_true]
        refine ⟨?_, by simp [hPcur]⟩
        cases hb : P.syncing.isEmpty
        · rfl
        · exact absurd hb he
    refine ⟨hPpp, hsy, ?_, hDevLocal⟩
    intro n hn hsx
    exact hNotQueued n hn hsx (by rw [hsy]; exact List.not_mem_nil n)

theorem isFileModified_congr {m1 m2 : List (String × Fingerprint)}
    {n : String} (h : lookupMeta m1 n = lookupMeta m2 n)
    (lm : Fingerprint) (dm : Nat) :
    isFileModified m1 n lm dm = isFileModified m2 n lm dm := by
  unfold isFileModified
  rw [h]

theorem passAfterDeletions_deleteOps (env : Env) (disk : List LocalFile)
    (policy : Bool) (st : AgentState) :
    (passAfterDeletions env disk policy st).deleteOps =
      st.deleteOps +
        (if policy then (toDelete st.device (localNamesOf disk)).length
         else 0) := by
  unfold passAfterDeletions
  cases policy
  · simp
  · simp only [scanNames_eq_localNames, updateStatus_metadata]
    rw [if_pos trivial]
    rw [runDeletions_deleteOps]
    simp

/-- C5 (amended): reconciliation is idempotent for passes that complete
cleanly — if the device is not printing, every file reaches size
stability, every upload and every deletion succeeds, the folder has no
duplicate names and the engine starts idle (empty pending set, no
upload in flight), then after one reconciliation pass an immediately
following pass over the unchanged folder and the resulting device
state performs zero upload operations and zero delete operations (the
operation counters do not advance).  The claim as stated — requiring
only that the first pass completes — is refuted by the counterexample:
a failed upload leaves the device unchanged, and the second pass
repeats the upload operation. -/
theorem C5_clean_idempotence (env : Env) (disk : List LocalFile)
    (policy : Bool) (st : AgentState)
    (hpr : env.printing = false)
    (hstab : ∀ g, env.stabilizes g = true)
    (hup : ∀ g, uploadSucceeded (env.uploadResult g) = true)
    (hdel : ∀ d, env.deleteOk d = true)
    (hnodup : (disk.map (fun lf => lf.name)).Nodup)
    (hpp : st.printingPaused = false) (hcur : st.current = "")
    (hsync : st.syncing = []) :
    (syncAllPass env disk policy (syncAllPass env disk policy st)).uploadOps
      = (syncAllPass env disk policy st).uploadOps ∧
    (syncAllPass env disk policy (syncAllPass env disk policy st)).deleteOps
      = (syncAllPass env disk policy st).deleteOps := by
  obtain ⟨h1pp, h1sync, h1dev, h1devloc⟩ :=
    pass_clean env disk policy st hpr hstab hup hdel hpp hcur hsync
  set S := syncAllPass env disk policy st with hS
  have htd : policy = true → toDelete S.device (localNamesOf disk) = [] := by
    intro hpol
    unfold toDelete
    rw [List.filter_eq_nil_iff]
    intro d hd
    rw [Bool.not_eq_true, Bool.not_eq_false']
    exact contains_mem.mpr (h1devloc hpol d hd)
  have hQ2 : queuedFiles disk (passAfterDeletions env disk policy S)
      (scanLocalFiles env S.metadata disk).2 = [] := by
    unfold queuedFiles
    rw [List.filter_eq_nil_iff]
    intro p hp
    rw [Bool.not_eq_true]
    by_cases hsx : syncExt p.1 = true
    · have hnames : p.1 ∈ localNamesOf disk := by
        rw [← scanNames_eq_localNames env S.metadata disk]
        exact List.mem_map_of_mem (fun q => q.1) hp
      have hdev : p.1 ∈ S.device := h1dev p.1 hnames hsx
      have hdev2 : p.1 ∈ (passAfterDeletions env disk policy S).device := by
        rw [passAfterDeletions_device env disk policy S hdel]
        refine ⟨hdev, fun hpol => ?_⟩
        rw [htd hpol]
        exact List.not_mem_nil p.1
      have hcont : (passAfterDeletions env disk policy
          S).device.contains p.1 = true := contains_mem.mpr hdev2
      have hlook := passAfterDeletions_lookup env disk policy S p.1 hnames
      have hmod : isFileModified
          (passAfterDeletions env disk policy S).metadata p.1 p.2
          (diskMtimeOf disk p.1 p.2.mtime) = false := by
        rw [isFileModified_congr hlook]
        exact scanLocalFiles_entry_unmodified env disk S.metadata p.1 p.2
          hnodup hp
      rw [hsx, hcont, hmod]
      rfl
    · rw [Bool.eq_false_iff.mpr hsx, Bool.false_and]
  have hP2sync : (passPrepared env disk policy S).syncing = [] := by
    rw [passPrepared_syncing, passAfterDeletions_syncing, h1sync, hQ2]
    rfl
  have hguard : (!(passPrepared env disk policy S).syncing.isEmpty &&
      ((passPrepared env disk policy S).current == "")) = false := by
    rw [hP2sync]
    rfl
  have hpass2 : syncAllPass env disk policy S =
      passPrepared env disk policy S := by
    rw [syncAllPass, if_neg (by simp [h1pp])]
    show (if (!(passPrepared env disk policy S).syncing.isEmpty &&
        ((passPrepared env disk policy S).current == "")) = true then
      workerRun env disk (passPrepared env disk policy S)
        (passPrepared env disk policy S).syncing
    else passPrepared env disk policy S) = passPrepared env disk policy S
    rw [if_neg (by simp [hguard])]
  constructor
  · rw [hpass2, passPrepared_uploadOps, passAfterDeletions_uploadOps]
  · rw [hpass2, passPrepared_deleteOps, passAfterDeletions_deleteOps]
    cases hpol : policy
    · simp
    · rw [htd hpol]
      simp

/-- C5 (counterexample): the claim quantifies over every completed
pass.  Take a device that rejects every upload (`uploadFile` returns
an error string): the first pass completes, performing one failed
upload operation and leaving the device storage unchanged (and the
local folder is unchanged by construction), yet the immediately
following pass performs another upload operation instead of zero. -/
theorem C5_counterexample :
    (syncAllPass
        ⟨fun _ => "h", fun _ => "M28 Error: x", fun _ => true,
          fun _ => true, false⟩
        [⟨"a.ctb", 1, 10, [1, 2, 3]⟩] false
        ⟨[], [], [], [], "", false, "offline", [], 0, 0⟩).uploadOps = 1 ∧
    (syncAllPass
        ⟨fun _ => "h", fun _ => "M28 Error: x", fun _ => true,
          fun _ => true, false⟩
        [⟨"a.ctb", 1, 10, [1, 2, 3]⟩] false
        ⟨[], [], [], [], "", false, "offline", [], 0, 0⟩).device =
      (⟨[], [], [], [], "", false, "offline", [], 0, 0⟩ :
        AgentState).device ∧
    (syncAllPass
        ⟨fun _ => "h", fun _ => "M28 Error: x", fun _ => true,
          fun _ => true, false⟩
        [⟨"a.ctb", 1, 10, [1, 2, 3]⟩] false
        (syncAllPass
          ⟨fun _ => "h", fun _ => "M28 Error: x", fun _ => true,
            fun _ => true, false⟩
          [⟨"a.ctb", 1, 10, [1, 2, 3]⟩] false
          ⟨[], [], [], [], "", false, "offline", [], 0, 0⟩)).uploadOps =
      2 := by
  refine ⟨by decide, by decide, by decide⟩

/-- C5 witness: the amended theorem applied to a one-file folder, an
empty device, deletion policy on, and a device that accepts
everything. -/
theorem C5_clean_idempotence_witness :
    (syncAllPass
        ⟨fun _ => "h", fun _ => "Done saving.", fun _ => true,
          fun _ => true, false⟩
        [⟨"a.ctb", 1, 10, [1, 2, 3]⟩] true
        (syncAllPass
          ⟨fun _ => "h", fun _ => "Done saving.", fun _ => true,
            fun _ => true, false⟩
          [⟨"a.ctb", 1, 10, [1, 2, 3]⟩] true
          ⟨[], [], [], [], "", false, "offline", [], 0, 0⟩)).uploadOps =
      (syncAllPass
        ⟨fun _ => "h", fun _ => "Done saving.", fun _ => true,
          fun _ => true, false⟩
        [⟨"a.ctb", 1, 10, [1, 2, 3]⟩] true
        ⟨[], [], [], [], "", false, "offline", [], 0, 0⟩).uploadOps ∧
    (syncAllPass
        ⟨fun _ => "h", fun _ => "Done saving.", fun _ => true,
          fun _ => true, false⟩
        [⟨"a.ctb", 1, 10, [1, 2, 3]⟩] true
        (syncAllPass
          ⟨fun _ => "h", fun _ => "Done saving.", fun _ => true,
            fun _ => true, false⟩
          [⟨"a.ctb", 1, 10, [1, 2, 3]⟩] true
          ⟨[], [], [], [], "", false, "offline", [], 0, 0⟩)).deleteOps =
      (syncAllPass
        ⟨fun _ => "h", fun _ => "Done saving.", fun _ => true,
          fun _ => true, false⟩
        [⟨"a.ctb", 1, 10, [1, 2, 3]⟩] true
        ⟨[], [], [], [], "", false, "offline", [], 0, 0⟩).deleteOps :=
  C5_clean_idempotence
    ⟨fun _ => "h", fun _ => "Done saving.", fun _ => true, fun _ => true,
      false⟩
    [⟨"a.ctb", 1, 10, [1, 2, 3]⟩] true
    ⟨[], [], [], [], "", false, "offline", [], 0, 0⟩
    rfl (fun _ => rfl)
    (fun _ => show uploadSucceeded "Done saving." = true by decide)
    (fun _ => rfl) (by decide) rfl rfl rfl

end SaturnSync
